import Mathlib

/-
Verification of the PaddiSense document-store command backends.

Each Python backend (ipm_backend.py, asm_backend.py, str_backend.py,
wss_backend.py) is a single-threaded read-modify-write cycle over a JSON
document.  We embed the relevant functions shallowly: JSON dictionaries
keyed by strings become association lists, Python floats used for stock
quantities and signed deltas become integers (only their ordered additive structure - addition, clamping at zero, sign tests - is used by the code), head counts are integers, the current
wall-clock time is passed in as an explicit string parameter, and a
command returns the exit code, the printed line and the persisted state.
On an error path the Python code returns before calling the save
function, so the persisted state is the unchanged input state.
-/

namespace PaddiKV

/-- First-match lookup in an association list, mirroring a Python dict
read such as `products[product_id]` / `stock_by_location.get(location)`. -/
def getA {α : Type} (k : String) : List (String × α) → Option α
  | [] => none
  | (k₀, v₀) :: t => if k₀ = k then some v₀ else getA k t

/-- Write through a key, mirroring `d[k] = v`: replace the first binding
of the key if present, otherwise append a new binding. -/
def setA {α : Type} (k : String) (v : α) : List (String × α) → List (String × α)
  | [] => [(k, v)]
  | (k₀, v₀) :: t => if k₀ = k then (k, v) :: t else (k₀, v₀) :: setA k v t

/-- Delete a key, mirroring `del d[k]`. -/
def eraseA {α : Type} (k : String) (l : List (String × α)) : List (String × α) :=
  l.filter (fun kv => kv.1 ≠ k)

/-- In-place update of the value stored under a key, mirroring Python
code that mutates `d[k]` through a reference (`part["stock"] = ...`). -/
def modifyA {α : Type} (k : String) (f : α → α) : List (String × α) → List (String × α)
  | [] => []
  | (k₀, v₀) :: t => if k₀ = k then (k₀, f v₀) :: t else (k₀, v₀) :: modifyA k f t

/-- The keys of an association list. -/
def keysA {α : Type} (l : List (String × α)) : List String := l.map Prod.fst


end PaddiKV

/-
Structural models of the Python string methods used by the backends
(str.strip(), str.upper(), str.lower()), written by character-list
recursion so that concrete instances evaluate inside the kernel.
str.strip() is modeled on the usual ASCII whitespace.
-/
def String.pyStrip (s : String) : String :=
  String.mk (((s.data.dropWhile Char.isWhitespace).reverse.dropWhile
    Char.isWhitespace).reverse)

def String.pyUpper (s : String) : String := String.mk (s.data.map Char.toUpper)

def String.pyLower (s : String) : String := String.mk (s.data.map Char.toLower)

/-
Identifier generation (ipm_backend.py generate_id, asm_backend.py
generate_id).  The Python code is
    clean = re.sub(r"[^A-Z0-9]+", "_", name.upper())
    clean = re.sub(r"_+", "_", clean).strip("_")
    return clean[:N] if clean else "UNKNOWN"
with N = 20 for ipm and N = 30 for asm.  The uppercasing function of
Python str.upper is kept as an explicit parameter so that the proved
format properties hold for the real Unicode case mapping; Char.toUpper
is used for concrete evaluation.
-/

namespace PaddiId

/-- Membership in the character class [A-Z0-9]. -/
def isUpperAlnum (c : Char) : Bool :=
  (('A' ≤ c) && (c ≤ 'Z')) || (('0' ≤ c) && (c ≤ '9'))

/-- re.sub of every maximal run of characters satisfying bad by a single
underscore.  The boolean argument records whether the previous input
character belonged to the current run. -/
def subRuns (bad : Char → Bool) : List Char → Bool → List Char
  | [], _ => []
  | c :: t, prevBad =>
    if bad c then
      if prevBad then subRuns bad t true else '_' :: subRuns bad t true
    else c :: subRuns bad t false

/-- str.strip("_") on a list of characters. -/
def stripUnders (l : List Char) : List Char :=
  ((l.dropWhile (fun c => c = '_')).reverse.dropWhile (fun c => c = '_')).reverse

/-- The cleaned name before truncation: uppercase, collapse runs of
characters outside [A-Z0-9] to one underscore, collapse runs of
underscores, strip outer underscores. -/
def cleanOf (up : Char → Char) (name : String) : List Char :=
  stripUnders (subRuns (fun c => c = '_')
    (subRuns (fun c => !isUpperAlnum c) (name.toList.map up) false) false)

/-- generate_id with the module's maximum length (20 for ipm, 30 for asm). -/
def generateIdCore (up : Char → Char) (maxLen : Nat) (name : String) : String :=
  let clean := cleanOf up name
  if clean = [] then "UNKNOWN" else String.mk (clean.take maxLen)

/-- Characters a generated identifier may contain. -/
def goodChar (c : Char) : Prop := c = '_' ∨ isUpperAlnum c = true


end PaddiId

/-
Outcome of one command invocation: the process exit code, the line
printed to standard output or standard error, and the persisted state
after the invocation (unchanged when the command failed, since every
error path of the Python code returns before the save call).
-/
structure CmdRes (σ : Type) where
  exit : Nat
  out : String
  state : σ
deriving DecidableEq

/-
Document-store loading (ipm load_inventory, str load_mobs).  The backing
file is either absent, or present with bytes whose fate under
  json.loads(FILE.read_text(encoding="utf-8"))
is one of: the read raises an IOError (OSError), the bytes are not valid
UTF-8 so read_text raises UnicodeDecodeError, the text is not valid JSON
so json.loads raises json.JSONDecodeError, or parsing succeeds with a
document.  The load functions wrap this in
  except (json.JSONDecodeError, IOError)
which catches JSONDecodeError and IOError; UnicodeDecodeError is a
direct subclass of ValueError, not of json.JSONDecodeError and not of
IOError, so it is not caught and propagates to the caller.
-/
namespace PaddiFs

inductive PyExc
  | ioError
  | jsonDecodeError
  | unicodeDecodeError
deriving DecidableEq

inductive ContentFate (δ : Type)
  | ioFail
  | notUtf8
  | utf8NotJson
  | utf8Json (d : δ)
deriving DecidableEq

inductive FileState (δ : Type)
  | absent
  | present (c : ContentFate δ)
deriving DecidableEq

/-- Fate of json.loads(FILE.read_text(encoding="utf-8")) on a present file. -/
def readParse {δ : Type} : ContentFate δ → Except PyExc δ
  | .ioFail => .error .ioError
  | .notUtf8 => .error .unicodeDecodeError
  | .utf8NotJson => .error .jsonDecodeError
  | .utf8Json d => .ok d

/-- Which exceptions the clause except (json.JSONDecodeError, IOError) catches. -/
def caughtJsonIo : PyExc → Bool
  | .jsonDecodeError => true
  | .ioError => true
  | .unicodeDecodeError => false

/-- The shared body of load_inventory / load_mobs: a missing file yields
the module default, a caught exception yields the module default, an
uncaught exception propagates, and valid JSON is returned as parsed. -/
def loadOrDefault {δ : Type} (dft : δ) : FileState δ → Except PyExc δ
  | .absent => .ok dft
  | .present c =>
    match readParse c with
    | .ok d => .ok d
    | .error e => if caughtJsonIo e then .ok dft else .error e

end PaddiFs

/-
ipm_backend.py — Inventory Product Manager backend.
-/
namespace Ipm

open PaddiKV

def DEFAULT_LOCATIONS : List String :=
  ["Chem Shed", "Seed Shed", "Oil Shed", "Silo 1", "Silo 2", "Silo 3",
   "Silo 4", "Silo 5", "Silo 6", "Silo 7", "Silo 8", "Silo 9", "Silo 10",
   "Silo 11", "Silo 12", "Silo 13"]

def CATEGORY_SUBCATEGORIES : List (String × List String) :=
  [("Chemical", ["Adjuvant", "Fungicide", "Herbicide", "Insecticide",
                 "Pesticide", "Rodenticide", "Seed Treatment"]),
   ("Fertiliser", ["Nitrogen", "Phosphorus", "Potassium", "NPK Blend",
                   "Trace Elements", "Organic"]),
   ("Seed", ["Wheat", "Barley", "Canola", "Rice", "Oats", "Pasture", "Other"]),
   ("Lubricant", ["Engine Oil", "Hydraulic Oil", "Grease", "Gear Oil",
                  "Transmission Fluid", "Coolant"])]

def STANDARD_ACTIVES : List String :=
  ["2,4-D", "Atrazine", "Bromoxynil", "Carfentrazone-ethyl", "Clethodim",
   "Clodinafop-propargyl", "Clopyralid", "Dicamba", "Diflufenican", "Diquat",
   "Fenoxaprop-P-ethyl", "Florasulam", "Fluazifop-P-butyl", "Flumetsulam",
   "Fluroxypyr", "Glufosinate-ammonium", "Glyphosate", "Haloxyfop", "Imazamox",
   "Imazapic", "Imazapyr", "Imazethapyr", "MCPA", "Mesotrione", "Metolachlor",
   "Metsulfuron-methyl", "Paraquat", "Pendimethalin", "Picloram", "Pinoxaden",
   "Propaquizafop", "Prosulfocarb", "Pyroxasulfone", "Pyroxsulam",
   "Quizalofop-P-ethyl", "Sethoxydim", "Simazine", "Sulfometuron-methyl",
   "Sulfosulfuron", "Terbuthylazine", "Triallate", "Tribenuron-methyl",
   "Triclopyr", "Trifluralin", "Trifloxysulfuron",
   "Azoxystrobin", "Bixafen", "Boscalid", "Carbendazim", "Chlorothalonil",
   "Cyproconazole", "Difenoconazole", "Epoxiconazole", "Fludioxonil",
   "Fluopyram", "Flutriafol", "Fluxapyroxad", "Iprodione", "Isopyrazam",
   "Mancozeb", "Metalaxyl", "Propiconazole", "Prothioconazole",
   "Pyraclostrobin", "Tebuconazole", "Thiram", "Triadimefon", "Triadimenol",
   "Trifloxystrobin",
   "Abamectin", "Acetamiprid", "Alpha-cypermethrin", "Bifenthrin",
   "Chlorantraniliprole", "Chlorpyrifos", "Clothianidin", "Cyantraniliprole",
   "Cypermethrin", "Deltamethrin", "Dimethoate", "Emamectin benzoate",
   "Esfenvalerate", "Fipronil", "Imidacloprid", "Indoxacarb",
   "Lambda-cyhalothrin", "Malathion", "Methomyl", "Omethoate", "Pirimicarb",
   "Spinetoram", "Spinosad", "Sulfoxaflor", "Thiacloprid", "Thiamethoxam",
   "Ipconazole", "Metalaxyl-M", "Sedaxane", "Triticonazole",
   "Boron", "Calcium", "Copper", "Iron", "Magnesium", "Manganese",
   "Molybdenum", "Nitrogen", "Phosphorus", "Potassium", "Sulfur", "Zinc",
   "Alcohol ethoxylate", "Ammonium sulfate", "Methylated seed oil",
   "Organosilicone", "Paraffin oil", "Petroleum oil"]

/-- generate_id of ipm_backend.py, maximum length 20. -/
def generate_id (name : String) : String :=
  PaddiId.generateIdCore Char.toUpper 20 name

/-- Worker for Python str.title(): uppercase each alphabetic character
that follows a non-alphabetic one, lowercase the rest. -/
def pyTitleGo : List Char → Bool → List Char
  | [], _ => []
  | c :: t, prevCased =>
    if c.isAlpha then
      (if prevCased then c.toLower else c.toUpper) :: pyTitleGo t true
    else c :: pyTitleGo t false

def pyTitle (s : String) : String := String.mk (pyTitleGo s.toList false)

/-- The fixed synonym table of normalize_category. -/
def categoryLookup : List (String × String) :=
  [("chemical", "Chemical"), ("chemicals", "Chemical"),
   ("fertiliser", "Fertiliser"), ("fertilizer", "Fertiliser"),
   ("seed", "Seed"), ("seeds", "Seed"),
   ("lubricant", "Lubricant"), ("lubricants", "Lubricant"),
   ("oil", "Lubricant")]

/-- normalize_category: lowercase and trim, map known synonyms, else
title-case the trimmed raw input. -/
def normalize_category (raw : String) : String :=
  match getA raw.pyStrip.pyLower categoryLookup with
  | some v => v
  | none => pyTitle raw.pyStrip

structure Active where
  name : String
  concentration : ℤ
  unit : String
  group : String
deriving DecidableEq

structure Product where
  id : String
  name : String
  category : String
  subcategory : String
  unit : String
  min_stock : ℤ
  active_constituents : List Active
  stock_by_location : List (String × ℤ)
  created : String
deriving DecidableEq

structure Transaction where
  timestamp : String
  action : String
  product_id : String
  product_name : String
  location : String
  delta : ℤ
  note : String
deriving DecidableEq

/-- The inventory document.  The modified field is not written by this
module but may be present in a document that was imported or edited by
hand, so it is carried as an optional field. -/
structure Inventory where
  products : List (String × Product)
  transactions : List Transaction
  modified : Option String := none
deriving DecidableEq

/-- The documented empty default of load_inventory. -/
def emptyInventory : Inventory :=
  { products := [], transactions := [], modified := none }

/-- load_inventory, with the file state made explicit (see PaddiFs). -/
def load_inventory : PaddiFs.FileState Inventory → Except PaddiFs.PyExc Inventory :=
  PaddiFs.loadOrDefault emptyInventory

/-- save_inventory writes the serialized document unchanged; unlike the
str module it does not stamp a modified timestamp.  The clock value at
the time of the call is passed explicitly and ignored, as the source
ignores the clock. -/
def save_inventory (_now : String) (data : Inventory) : Inventory := data

structure CustomActive where
  name : String
  common_groups : List String
  created : String
deriving DecidableEq

structure Config where
  locations : List String
  custom_actives : List CustomActive
  modified : Option String := none
deriving DecidableEq

/-- save_config stamps modified with the current time before writing. -/
def save_config (now : String) (config : Config) : Config :=
  { config with modified := some now }

/-- log_transaction: append one audit entry to the transactions array. -/
def log_transaction (now action product_id product_name location : String)
    (delta : ℤ) (note : String) (data : Inventory) : Inventory :=
  { data with transactions := data.transactions ++
      [{ timestamp := now, action := action, product_id := product_id,
         product_name := product_name, location := location, delta := delta,
         note := note }] }

/-- cmd_add_product.  The actives argument is the list parsed from the
--actives JSON flag (an unparsable flag degrades to the empty list in the
source and is out of scope here); the container_size and
application_unit pass-through display fields are omitted. -/
def cmd_add_product (now name category subcategory unit location : String)
    (min_stock initial_stock : ℤ) (actives : List Active)
    (data : Inventory) : CmdRes Inventory :=
  let product_id := generate_id name
  if (getA product_id data.products).isSome then
    { exit := 1, out := "ERROR: Product already exists", state := data }
  else
    let cat := normalize_category category
    match getA cat CATEGORY_SUBCATEGORIES with
    | none => { exit := 1, out := "ERROR: Invalid category", state := data }
    | some subs =>
      let sub := subcategory.pyStrip
      if sub ≠ "" ∧ sub ∉ subs then
        { exit := 1, out := "ERROR: Subcategory not valid", state := data }
      else
        let product : Product :=
          { id := product_id, name := name.pyStrip, category := cat,
            subcategory := sub,
            unit := if unit = "" then "L" else unit.pyStrip,
            min_stock := min_stock,
            active_constituents :=
              if cat = "Chemical" ∨ cat = "Fertiliser" then actives else [],
            stock_by_location := [], created := now }
        let loc := location.pyStrip
        let addInitial := initial_stock > 0 ∧ location ≠ ""
        let product :=
          if addInitial then
            { product with stock_by_location := [(loc, initial_stock)] }
          else product
        let data :=
          if addInitial then
            log_transaction now "initial_stock" product_id product.name loc
              initial_stock "Initial stock on product creation" data
          else data
        let data := { data with products := setA product_id product data.products }
        { exit := 0, out := "OK:" ++ product_id, state := save_inventory now data }

/-- cmd_move_stock: adjust stock at one location, clamped at zero; a
location whose new quantity is not positive is deleted from the map. -/
def cmd_move_stock (now id location : String) (delta : ℤ) (note : String)
    (data : Inventory) : CmdRes Inventory :=
  let product_id := id.pyStrip.pyUpper
  match getA product_id data.products with
  | none => { exit := 1, out := "ERROR: Product not found", state := data }
  | some product =>
    let loc := location.pyStrip
    if delta = 0 then { exit := 0, out := "OK:0", state := data }
    else
      let current := (getA loc product.stock_by_location).getD 0
      let new_stock := max 0 (current + delta)
      let sbl :=
        if new_stock > 0 then setA loc new_stock product.stock_by_location
        else eraseA loc product.stock_by_location
      let product := { product with stock_by_location := sbl }
      let data := { data with products := setA product_id product data.products }
      let data := log_transaction now
        (if delta > 0 then "stock_in" else "stock_out") product_id
        product.name loc delta note data
      { exit := 0, out := "OK:" ++ toString new_stock,
        state := save_inventory now data }

/-- cmd_remove_active: a standard active is never removable; a custom
active is removable only when no product lists it among its active
constituents (matching case-insensitively, as the source does). -/
def cmd_remove_active (now name : String) (config : Config) (data : Inventory) :
    CmdRes Config :=
  let name := name.pyStrip
  if name = "" then
    { exit := 1, out := "ERROR: Active name cannot be empty", state := config }
  else if STANDARD_ACTIVES.any (fun std => std.pyLower = name.pyLower) then
    { exit := 1, out := "ERROR: Cannot remove standard active", state := config }
  else
    match config.custom_actives.filter (fun a => a.name.pyLower = name.pyLower) with
    | [] => { exit := 1, out := "ERROR: Custom active not found", state := config }
    | m :: _ =>
      let actual := m.name
      let products_using := data.products.filter (fun kp =>
        kp.2.active_constituents.any (fun a => a.name.pyLower = actual.pyLower))
      if products_using ≠ [] then
        { exit := 1, out := "ERROR: Cannot remove active in use", state := config }
      else
        let remaining := config.custom_actives.filter
          (fun a => a.name.pyLower ≠ actual.pyLower)
        { exit := 0, out := "OK:removed:" ++ actual,
          state := save_config now { config with custom_actives := remaining } }

/-- A parsed backup file (cmd_export writes these; cmd_import reads
them).  The JSON field named type is modeled as type_tag.  The config
entry is optional because backup_data.get("config") may be absent, and
an absent or falsy value is not restored. -/
structure BackupFile where
  version : String
  created : String
  type_tag : String
  note : String
  inventory : Inventory
  config : Option Config
deriving DecidableEq

/-- The whole persisted state of the module: document, config, and the
backup directory as the list of snapshot files in creation order. -/
structure FullState where
  inv : Inventory
  cfg : Config
  backups : List BackupFile
deriving DecidableEq

/-- The automatic pre-import snapshot cmd_import writes before touching
the current state. -/
def preImportBackup (now : String) (st : FullState) : BackupFile :=
  { version := "1.0", created := now, type_tag := "ipm_backup",
    note := "Pre-import automatic backup", inventory := st.inv,
    config := some st.cfg }

/-- cmd_import on an already-parsed backup file (a missing file or a
JSON decode failure errors out before this logic; the structured
Inventory type satisfies the source check that the inventory entry is a
dict containing the key products). -/
def cmd_import (now : String) (b : BackupFile) (st : FullState) :
    CmdRes FullState :=
  if b.type_tag ≠ "ipm_backup" then
    { exit := 1, out := "ERROR: File is not a valid IPM backup", state := st }
  else
    let st₁ := { st with backups := st.backups ++ [preImportBackup now st] }
    let st₂ := { st₁ with inv := save_inventory now b.inventory }
    let st₃ :=
      match b.config with
      | some c => { st₂ with cfg := save_config now c }
      | none => st₂
    { exit := 0, out := "OK:imported", state := st₃ }

end Ipm

/-
asm_backend.py — Asset Service Manager backend.
-/
namespace Asm

open PaddiKV

def DEFAULT_ASSET_CATEGORIES : List String := ["Tractor", "Pump", "Harvester", "Vehicle"]

def DEFAULT_PART_CATEGORIES : List String :=
  ["Filter", "Belt", "Oil", "Grease", "Battery", "Tyre", "Hose"]

def DEFAULT_SERVICE_TYPES : List String :=
  ["250 Hr Service", "500 Hr Service", "1000 Hr Service", "Annual Service",
   "Repair", "Inspection", "Other"]

def DEFAULT_PART_UNITS : List String := ["ea", "L", "kg", "m"]

/-- The module-level SERVICE_TYPES list is initialized as a copy of the
defaults and nothing in the file ever overwrites it, so validation is
against the default list. -/
def SERVICE_TYPES : List String := DEFAULT_SERVICE_TYPES

def ASSET_CATEGORIES : List String := DEFAULT_ASSET_CATEGORIES

/-- generate_id of asm_backend.py, maximum length 30. -/
def generate_id (name : String) : String :=
  PaddiId.generateIdCore Char.toUpper 30 name

structure Asset where
  id : String
  name : String
  category : String
  created : String
deriving DecidableEq

structure Part where
  id : String
  name : String
  part_number : String
  category : String
  stock : ℤ
  min_stock : ℤ
  unit : String
  created : String
deriving DecidableEq

structure ServiceEvent where
  id : String
  timestamp : String
  asset_id : String
  asset_name : String
  service_type : String
  parts_consumed : List (String × ℤ)
  notes : String
  engine_hours : String
deriving DecidableEq

structure ATransaction where
  timestamp : String
  action : String
  entity_type : String
  entity_id : String
  entity_name : String
  details : String
deriving DecidableEq

structure Data where
  assets : List (String × Asset)
  parts : List (String × Part)
  service_events : List ServiceEvent
  transactions : List ATransaction
  modified : Option String := none
deriving DecidableEq

def emptyData : Data :=
  { assets := [], parts := [], service_events := [], transactions := [],
    modified := none }

/-- save_data writes the serialized document unchanged; like ipm
save_inventory and unlike str save_mobs it does not stamp a modified
timestamp. -/
def save_data (_now : String) (data : Data) : Data := data

def log_transaction (now action entity_type entity_id entity_name details : String)
    (data : Data) : Data :=
  { data with transactions := data.transactions ++
      [{ timestamp := now, action := action, entity_type := entity_type,
         entity_id := entity_id, entity_name := entity_name,
         details := details }] }

/-- cmd_adjust_stock: clamp the part stock at zero; a zero delta
short-circuits without saving. -/
def cmd_adjust_stock (now id : String) (delta : ℤ) (data : Data) : CmdRes Data :=
  let part_id := id.pyStrip.pyUpper
  match getA part_id data.parts with
  | none => { exit := 1, out := "ERROR: Part not found", state := data }
  | some part =>
    if delta = 0 then { exit := 0, out := "OK:0", state := data }
    else
      let current := part.stock
      let new_stock := max 0 (current + delta)
      let data := { data with
        parts := setA part_id { part with stock := new_stock } data.parts }
      let data := log_transaction now "stock_adjust" "part" part_id part.name
        "stock delta applied" data
      { exit := 0, out := "OK:" ++ toString new_stock,
        state := save_data now data }

/-- Zero-padded three-digit counter used in service event identifiers. -/
def pad3 (n : Nat) : String :=
  if n < 10 then "00" ++ toString n
  else if n < 100 then "0" ++ toString n
  else toString n

/-- cmd_record_service.  The partsReq argument is the list parsed from
the --parts JSON flag; dateStr is strftime for today.  Entries whose
part id is empty or unknown or whose quantity is not positive are
silently dropped by the source filter, exactly as modeled here. -/
def cmd_record_service (now dateStr asset serviceType : String)
    (partsReq : List (String × ℤ)) (notes hours : String) (data : Data) :
    CmdRes Data :=
  let asset_id := asset.pyStrip.pyUpper
  match getA asset_id data.assets with
  | none => { exit := 1, out := "ERROR: Asset not found", state := data }
  | some theAsset =>
    let service_type :=
      if serviceType.pyStrip ∈ SERVICE_TYPES then serviceType.pyStrip else "Other"
    let parts_consumed :=
      (partsReq.map (fun it => (it.1.pyStrip.pyUpper, it.2))).filter
        (fun it => it.1 ≠ "" ∧ (getA it.1 data.parts).isSome ∧ it.2 > 0)
    let event_id := "SE_" ++ dateStr ++ "_" ++ pad3 (data.service_events.length + 1)
    let event : ServiceEvent :=
      { id := event_id, timestamp := now, asset_id := asset_id,
        asset_name := theAsset.name, service_type := service_type,
        parts_consumed := parts_consumed, notes := notes.pyStrip,
        engine_hours := hours.pyStrip }
    let newParts := parts_consumed.foldl
      (fun ps pc => modifyA pc.1
        (fun p => { p with stock := max 0 (p.stock - pc.2) }) ps)
      data.parts
    let data := { data with parts := newParts }
    let data := { data with service_events := data.service_events ++ [event] }
    let data := log_transaction now "record_service" "service" event_id
      (service_type ++ " on " ++ theAsset.name) "parts deducted" data
    { exit := 0, out := "OK:" ++ event_id, state := save_data now data }

structure AsmConfig where
  asset_categories : List String
  part_categories : List String
  service_types : List String
  part_units : List String
  modified : Option String := none
deriving DecidableEq

def save_config (now : String) (config : AsmConfig) : AsmConfig :=
  { config with modified := some now }

structure BackupFile where
  version : String
  created : String
  type_tag : String
  note : String
  data : Data
  config : Option AsmConfig
deriving DecidableEq

structure FullState where
  dat : Data
  cfg : AsmConfig
  backups : List BackupFile
deriving DecidableEq

def preImportBackup (now : String) (st : FullState) : BackupFile :=
  { version := "1.0", created := now, type_tag := "asm_backup",
    note := "Pre-import automatic backup", data := st.dat,
    config := some st.cfg }

/-- cmd_import on an already-parsed backup file; the structured Data
type satisfies the source check that the data entry is a dict. -/
def cmd_import (now : String) (b : BackupFile) (st : FullState) :
    CmdRes FullState :=
  if b.type_tag ≠ "asm_backup" then
    { exit := 1, out := "ERROR: File is not a valid ASM backup", state := st }
  else
    let st₁ := { st with backups := st.backups ++ [preImportBackup now st] }
    let st₂ := { st₁ with dat := save_data now b.data }
    let st₃ :=
      match b.config with
      | some c => { st₂ with cfg := save_config now c }
      | none => st₂
    { exit := 0, out := "OK:imported", state := st₃ }

end Asm

/-
str_backend.py — Stock Tracker backend.
-/
namespace Str

open PaddiKV

def DEFAULT_AGE_CLASSES : List String :=
  ["Calves", "Weaners", "Yearlings", "Heifers", "Cows", "Bulls", "Steers"]

def DEFAULT_CROSSES : List String :=
  ["Angus", "Hereford", "Angus x Hereford", "Brahman", "Droughtmaster",
   "Murray Grey", "Charolais", "Simmental", "Shorthorn"]

structure AttrDef where
  id : String
  name : String
deriving DecidableEq

def DEFAULT_ATTRIBUTES : List AttrDef :=
  [{ id := "lick_active", name := "Lick Active" },
   { id := "vaccinated", name := "Vaccinated" },
   { id := "pregnant", name := "Pregnant" },
   { id := "for_sale", name := "For Sale" },
   { id := "weaned", name := "Weaned" },
   { id := "drenched", name := "Drenched" }]

def DEFAULT_OFF_FARM_LOCATIONS : List String :=
  ["Agistment", "Feedlot", "Sold", "Deceased", "Saleyards", "Abattoir"]

structure Config where
  version : String
  age_classes : List String
  crosses : List String
  attributes : List AttrDef
  off_farm_locations : List String
  modified : Option String := none
deriving DecidableEq

def save_config (now : String) (config : Config) : Config :=
  { config with modified := some now }

/-- The nested details object stored while a mob is off-farm. -/
structure OffFarmDetails where
  reason : String
  date : String
  from_location : String
  note : String
deriving DecidableEq

structure Mob where
  id : String
  name : String
  cross : String
  age_class : String
  head_count : ℤ
  location : String
  location_name : String
  off_farm : Bool
  off_farm_details : Option OffFarmDetails
  attributes : List String
  notes : String
  created : String
  modified : String
deriving DecidableEq

structure Movement where
  timestamp : String
  mob_id : String
  mob_name : String
  action : String
  from_location : String
  to_location : String
  head_count : ℤ
  note : String
deriving DecidableEq

structure MobsData where
  mobs : List (String × Mob)
  movements : List Movement
  modified : Option String := none
deriving DecidableEq

/-- The documented empty default of load_mobs. -/
def emptyMobs : MobsData := { mobs := [], movements := [], modified := none }

/-- load_mobs, with the file state made explicit (see PaddiFs). -/
def load_mobs : PaddiFs.FileState MobsData → Except PaddiFs.PyExc MobsData :=
  PaddiFs.loadOrDefault emptyMobs

/-- save_mobs stamps modified with the current time before writing. -/
def save_mobs (now : String) (data : MobsData) : MobsData :=
  { data with modified := some now }

/-- The read-only paddock registry consulted for location validation. -/
structure Paddock where
  name : String
deriving DecidableEq

structure Registry where
  paddocks : List (String × Paddock)
deriving DecidableEq

def log_movement (now mob_id mob_name action from_location to_location : String)
    (head_count : ℤ) (note : String) (data : MobsData) : MobsData :=
  { data with movements := data.movements ++
      [{ timestamp := now, mob_id := mob_id, mob_name := mob_name,
         action := action, from_location := from_location,
         to_location := to_location, head_count := head_count, note := note }] }

/-- cmd_add_mob.  newId stands for the random generate_mob_id result and
attrsReq for the list parsed from the --attributes JSON flag. -/
def cmd_add_mob (newId now name ageClass crossArg : String) (headCount : ℤ)
    (location : String) (attrsReq : List String) (notes : String)
    (config : Config) (registry : Registry) (data : MobsData) :
    CmdRes MobsData :=
  let name := name.pyStrip
  if name = "" then
    { exit := 1, out := "ERROR: Mob name is required", state := data }
  else
    let age_class := ageClass.pyStrip
    if age_class ≠ "" ∧ age_class ∉ config.age_classes then
      { exit := 1, out := "ERROR: Invalid age class", state := data }
    else
      let cross := crossArg.pyStrip
      if cross ≠ "" ∧ cross ∉ config.crosses then
        { exit := 1, out := "ERROR: Invalid cross", state := data }
      else
        let head_count := if headCount < 0 then 0 else headCount
        let loc := location.pyStrip
        if loc ≠ "" ∧ (getA loc registry.paddocks).isNone then
          { exit := 1, out := "ERROR: Invalid paddock", state := data }
        else
          let location_name :=
            match getA loc registry.paddocks with
            | some p => if loc ≠ "" then p.name else ""
            | none => ""
          let valid_ids := config.attributes.map AttrDef.id
          let attributes := attrsReq.filter (fun a => a ∈ valid_ids)
          let mob : Mob :=
            { id := newId, name := name, cross := cross, age_class := age_class,
              head_count := head_count, location := loc,
              location_name := location_name, off_farm := false,
              off_farm_details := none, attributes := attributes,
              notes := notes.pyStrip, created := now, modified := now }
          let data := { data with mobs := setA newId mob data.mobs }
          let data :=
            if loc ≠ "" then
              log_movement now newId name "add" "" loc head_count
                "Mob created" data
            else data
          { exit := 0, out := "OK:" ++ newId, state := save_mobs now data }

/-- cmd_edit_mob: only the supplied optional fields are overwritten. -/
def cmd_edit_mob (now id : String) (name ageClass crossArg notes : Option String)
    (config : Config) (data : MobsData) : CmdRes MobsData :=
  let mob_id := id.pyStrip
  match getA mob_id data.mobs with
  | none => { exit := 1, out := "ERROR: Mob not found", state := data }
  | some mob =>
    let mob :=
      match name with
      | some n => { mob with name := n.pyStrip }
      | none => mob
    let ageOk : Bool :=
      match ageClass with
      | some a => (a.pyStrip = "") || config.age_classes.contains a.pyStrip
      | none => true
    if !ageOk then
      { exit := 1, out := "ERROR: Invalid age class", state := data }
    else
      let mob :=
        match ageClass with
        | some a => { mob with age_class := a.pyStrip }
        | none => mob
      let crossOk : Bool :=
        match crossArg with
        | some c => (c.pyStrip = "") || config.crosses.contains c.pyStrip
        | none => true
      if !crossOk then
        { exit := 1, out := "ERROR: Invalid cross", state := data }
      else
        let mob :=
          match crossArg with
          | some c => { mob with cross := c.pyStrip }
          | none => mob
        let mob :=
          match notes with
          | some n => { mob with notes := n.pyStrip }
          | none => mob
        let mob := { mob with modified := now }
        let data := { data with mobs := setA mob_id mob data.mobs }
        { exit := 0, out := "OK:" ++ mob_id, state := save_mobs now data }

/-- cmd_adjust_count: clamp the head count at zero; a zero delta
short-circuits without saving. -/
def cmd_adjust_count (now id : String) (delta : ℤ) (reason note : String)
    (data : MobsData) : CmdRes MobsData :=
  let mob_id := id.pyStrip
  match getA mob_id data.mobs with
  | none => { exit := 1, out := "ERROR: Mob not found", state := data }
  | some mob =>
    if delta = 0 then
      { exit := 0, out := "OK:" ++ toString mob.head_count, state := data }
    else
      let old_count := mob.head_count
      let new_count := max 0 (old_count + delta)
      let mob := { mob with head_count := new_count, modified := now }
      let data := { data with mobs := setA mob_id mob data.mobs }
      let action :=
        if delta > 0 then "births"
        else if reason.pyStrip = "" then "reduction" else reason.pyStrip
      let data := log_movement now mob_id mob.name action "" "" |delta|
        (if note.pyStrip = "" then action else note.pyStrip) data
      { exit := 0, out := "OK:" ++ toString new_count,
        state := save_mobs now data }

/-- cmd_move_mob: an off-farm mob cannot be moved; the destination must
be a registry paddock. -/
def cmd_move_mob (now id toLocation note : String) (registry : Registry)
    (data : MobsData) : CmdRes MobsData :=
  let mob_id := id.pyStrip
  match getA mob_id data.mobs with
  | none => { exit := 1, out := "ERROR: Mob not found", state := data }
  | some mob =>
    if mob.off_farm then
      { exit := 1, out := "ERROR: Cannot move off-farm mob. Return to farm first.",
        state := data }
    else
      let to_location := toLocation.pyStrip
      if to_location = "" then
        { exit := 1, out := "ERROR: Destination location is required", state := data }
      else
        match getA to_location registry.paddocks with
        | none => { exit := 1, out := "ERROR: Invalid paddock", state := data }
        | some paddock =>
          let from_location := mob.location
          let mob := { mob with
            location := to_location
            location_name := paddock.name
            modified := now }
          let data := { data with mobs := setA mob_id mob data.mobs }
          let data := log_movement now mob_id mob.name "move" from_location
            to_location mob.head_count note.pyStrip data
          { exit := 0, out := "OK:moved:" ++ to_location,
            state := save_mobs now data }

/-- cmd_set_off_farm: requires the mob to be on-farm and the reason to
be one of the configured off-farm locations; clears the location fields
and stores the details object. -/
def cmd_set_off_farm (now id reasonArg note : String) (config : Config)
    (data : MobsData) : CmdRes MobsData :=
  let mob_id := id.pyStrip
  match getA mob_id data.mobs with
  | none => { exit := 1, out := "ERROR: Mob not found", state := data }
  | some mob =>
    if mob.off_farm then
      { exit := 1, out := "ERROR: Mob is already off-farm", state := data }
    else
      let reason := reasonArg.pyStrip
      if reason = "" then
        { exit := 1, out := "ERROR: Off-farm reason is required", state := data }
      else if reason ∉ config.off_farm_locations then
        { exit := 1, out := "ERROR: Invalid off-farm reason", state := data }
      else
        let from_location := mob.location
        let details : OffFarmDetails :=
          { reason := reason, date := now, from_location := from_location,
            note := note.pyStrip }
        let mob := { mob with
          off_farm := true
          off_farm_details := some details
          location := ""
          location_name := ""
          modified := now }
        let data := { data with mobs := setA mob_id mob data.mobs }
        let data := log_movement now mob_id mob.name "off_farm" from_location
          reason mob.head_count
          (if note.pyStrip = "" then "Off-farm" else note.pyStrip) data
        { exit := 0, out := "OK:off_farm:" ++ reason,
          state := save_mobs now data }

/-- cmd_return_to_farm: requires the mob to be off-farm and a valid
destination paddock; restores the location fields and clears the
details object. -/
def cmd_return_to_farm (now id toLocation note : String) (registry : Registry)
    (data : MobsData) : CmdRes MobsData :=
  let mob_id := id.pyStrip
  match getA mob_id data.mobs with
  | none => { exit := 1, out := "ERROR: Mob not found", state := data }
  | some mob =>
    if !mob.off_farm then
      { exit := 1, out := "ERROR: Mob is not off-farm", state := data }
    else
      let to_location := toLocation.pyStrip
      if to_location = "" then
        { exit := 1, out := "ERROR: Destination paddock is required", state := data }
      else
        match getA to_location registry.paddocks with
        | none => { exit := 1, out := "ERROR: Invalid paddock", state := data }
        | some paddock =>
          let from_location :=
            match mob.off_farm_details with
            | some d => d.reason
            | none => "off-farm"
          let mob := { mob with
            off_farm := false
            off_farm_details := none
            location := to_location
            location_name := paddock.name
            modified := now }
          let data := { data with mobs := setA mob_id mob data.mobs }
          let data := log_movement now mob_id mob.name "return" from_location
            to_location mob.head_count
            (if note.pyStrip = "" then "Returned to farm" else note.pyStrip) data
          { exit := 0, out := "OK:returned:" ++ to_location,
            state := save_mobs now data }

/-- cmd_toggle_attribute: remove the attribute id if present on the mob,
append it otherwise. -/
def cmd_toggle_attribute (now id attributeArg : String) (config : Config)
    (data : MobsData) : CmdRes MobsData :=
  let mob_id := id.pyStrip
  match getA mob_id data.mobs with
  | none => { exit := 1, out := "ERROR: Mob not found", state := data }
  | some mob =>
    let attr_id := attributeArg.pyStrip
    if attr_id ∉ config.attributes.map AttrDef.id then
      { exit := 1, out := "ERROR: Invalid attribute", state := data }
    else
      let attributes :=
        if attr_id ∈ mob.attributes then mob.attributes.erase attr_id
        else mob.attributes ++ [attr_id]
      let mob := { mob with attributes := attributes, modified := now }
      let data := { data with mobs := setA mob_id mob data.mobs }
      { exit := 0, out := "OK:toggled:" ++ attr_id, state := save_mobs now data }

/-- cmd_remove_age_class: any age class present in the config vocabulary
is removable as long as no mob carries it; there is no protection for
the seeded default entries. -/
def cmd_remove_age_class (now name : String) (config : Config)
    (data : MobsData) : CmdRes Config :=
  let name := name.pyStrip
  if name = "" then
    { exit := 1, out := "ERROR: Age class name is required", state := config }
  else if name ∉ config.age_classes then
    { exit := 1, out := "ERROR: Age class not found", state := config }
  else if data.mobs.any (fun km => km.2.age_class = name) then
    { exit := 1, out := "ERROR: Age class is in use", state := config }
  else
    { exit := 0, out := "OK:removed:" ++ name,
      state := save_config now
        { config with age_classes := config.age_classes.filter (· ≠ name) } }

end Str

/-
wss_backend.py — Worker Safety System backend (user management part).
-/
namespace Wss

open PaddiKV

structure User where
  id : String
  person_id : String
  username : String
  tracker_id : String
  activity_id : String
  notify_id : String
  enabled : Bool
  track_external : Bool
deriving DecidableEq

structure Users where
  users : List (String × User)
  modified : Option String := none
deriving DecidableEq

/-- save_users stamps modified with the current time before writing. -/
def save_users (now : String) (data : Users) : Users :=
  { data with modified := some now }

/-- The linear scan of cmd_add_user for an existing user with the given
person_id, in dictionary insertion order. -/
def findByPersonId (pid : String) : List (String × User) → Option String
  | [] => none
  | (uid, u) :: t => if u.person_id = pid then some uid else findByPersonId pid t

/-- cmd_add_user: when a user with the same person_id exists, its device
ids and username are updated in place and its existing id is printed;
otherwise a fresh user is inserted under newId (the random
generate_user_id result). -/
def cmd_add_user (newId now personId usernameArg trackerId activityId notifyId :
    String) (data : Users) : CmdRes Users :=
  let person_id := personId.pyStrip
  if person_id = "" then
    { exit := 1, out := "ERROR: person_id is required", state := data }
  else
    let username := usernameArg.pyStrip
    let tracker_id := trackerId.pyStrip
    let activity_id := activityId.pyStrip
    let notify_id := notifyId.pyStrip
    match findByPersonId person_id data.users with
    | some existing_id =>
      let upd := fun (u : User) => { u with
        tracker_id := tracker_id
        activity_id := activity_id
        notify_id := notify_id
        username := username }
      let data := { data with users := modifyA existing_id upd data.users }
      { exit := 0, out := "OK:updated:" ++ existing_id,
        state := save_users now data }
    | none =>
      let user : User :=
        { id := newId, person_id := person_id, username := username,
          tracker_id := tracker_id, activity_id := activity_id,
          notify_id := notify_id, enabled := false, track_external := false }
      { exit := 0, out := "OK:added:" ++ newId,
        state := save_users now { data with users := setA newId user data.users } }

end Wss

/-
Helper views and invariants used by the claim statements.
-/
namespace Ipm

/-- The quantity stored for a product at a location (0 when the product
or the location key is absent, matching stock_by_location.get(loc, 0)). -/
def stockOf (data : Inventory) (pid loc : String) : ℤ :=
  match PaddiKV.getA pid data.products with
  | some p => (PaddiKV.getA loc p.stock_by_location).getD 0
  | none => 0

/-- Every stored stock quantity of the document is non-negative. -/
def NonNeg (data : Inventory) : Prop :=
  ∀ kp ∈ data.products, ∀ lv ∈ kp.2.stock_by_location, 0 ≤ lv.2

/-- One move_stock invocation's arguments. -/
structure MoveArgs where
  now : String
  id : String
  location : String
  delta : ℤ
  note : String

/-- The persisted document after a sequence of move_stock invocations. -/
def applyMoves (ops : List MoveArgs) (data : Inventory) : Inventory :=
  ops.foldl (fun d a => (cmd_move_stock a.now a.id a.location a.delta a.note d).state) data

end Ipm

namespace Asm

/-- The stock stored for a part (0 when the part is absent). -/
def stockOf (data : Data) (pid : String) : ℤ :=
  match PaddiKV.getA pid data.parts with
  | some p => p.stock
  | none => 0

/-- Every stored part stock of the document is non-negative. -/
def NonNeg (data : Data) : Prop := ∀ kp ∈ data.parts, 0 ≤ kp.2.stock

structure AdjArgs where
  now : String
  id : String
  delta : ℤ

def applyAdjusts (ops : List AdjArgs) (data : Data) : Data :=
  ops.foldl (fun d a => (cmd_adjust_stock a.now a.id a.delta d).state) data

end Asm

namespace Str

/-- The head count stored for a mob (0 when the mob is absent). -/
def countOf (data : MobsData) (mid : String) : ℤ :=
  match PaddiKV.getA mid data.mobs with
  | some m => m.head_count
  | none => 0

/-- Every stored head count of the document is non-negative. -/
def NonNeg (data : MobsData) : Prop := ∀ km ∈ data.mobs, 0 ≤ km.2.head_count

structure AdjArgs where
  now : String
  id : String
  delta : ℤ
  reason : String
  note : String

def applyAdjusts (ops : List AdjArgs) (data : MobsData) : MobsData :=
  ops.foldl (fun d a => (cmd_adjust_count a.now a.id a.delta a.reason a.note d).state) data

/-- The off-farm consistency property of one mob record: an on-farm mob
carries no details object; an off-farm mob carries a populated details
object and empty location fields. -/
def MobConsistent (m : Mob) : Prop :=
  (m.off_farm = false → m.off_farm_details = none) ∧
  (m.off_farm = true →
    m.off_farm_details.isSome ∧ m.location = "" ∧ m.location_name = "")

/-- The consistency property for every mob in the store. -/
def AllConsistent (data : MobsData) : Prop :=
  ∀ km ∈ data.mobs, MobConsistent km.2

/-- One invocation of any STR mutation command other than import_backup
that touches the mobs document, with the config and registry the
invocation loads. -/
inductive Op
  | add (newId now name ageClass cross : String) (headCount : ℤ)
      (location : String) (attrs : List String) (notes : String)
      (cfg : Config) (reg : Registry)
  | edit (now id : String) (name ageClass cross notes : Option String)
      (cfg : Config)
  | adjust (now id : String) (delta : ℤ) (reason note : String)
  | move (now id toLoc note : String) (reg : Registry)
  | offFarm (now id reason note : String) (cfg : Config)
  | ret (now id toLoc note : String) (reg : Registry)
  | toggle (now id attr : String) (cfg : Config)

/-- The persisted document after one such invocation. -/
def applyOp (o : Op) (data : MobsData) : MobsData :=
  match o with
  | .add newId now name ageClass cross headCount location attrs notes cfg reg =>
    (cmd_add_mob newId now name ageClass cross headCount location attrs notes
      cfg reg data).state
  | .edit now id name ageClass cross notes cfg =>
    (cmd_edit_mob now id name ageClass cross notes cfg data).state
  | .adjust now id delta reason note =>
    (cmd_adjust_count now id delta reason note data).state
  | .move now id toLoc note reg => (cmd_move_mob now id toLoc note reg data).state
  | .offFarm now id reason note cfg =>
    (cmd_set_off_farm now id reason note cfg data).state
  | .ret now id toLoc note reg =>
    (cmd_return_to_farm now id toLoc note reg data).state
  | .toggle now id attr cfg => (cmd_toggle_attribute now id attr cfg data).state

end Str

/-
Concrete states used to instantiate the claims.
-/
namespace Ipm

def demoActive : Active :=
  { name := "MyActive", concentration := 500, unit := "g/L", group := "2" }

def demoProduct : Product :=
  { id := "UREA", name := "Urea", category := "Fertiliser", subcategory := "",
    unit := "kg", min_stock := 0, active_constituents := [demoActive],
    stock_by_location := [("Silo 1", 30)], created := "T0" }

def demoInventory : Inventory :=
  { products := [("UREA", demoProduct)], transactions := [],
    modified := some "T1" }

def demoConfig : Config :=
  { locations := DEFAULT_LOCATIONS,
    custom_actives :=
      [{ name := "MyActive", common_groups := ["2"], created := "T0" },
       { name := "SpareActive", common_groups := [], created := "T0" }],
    modified := none }

def demoFullState : FullState :=
  { inv := demoInventory, cfg := demoConfig, backups := [] }

def demoBackup : BackupFile :=
  { version := "1.0", created := "T0", type_tag := "ipm_backup", note := "",
    inventory := emptyInventory, config := none }

end Ipm

namespace Asm

def demoAsset : Asset :=
  { id := "TRACTOR_1", name := "Tractor 1", category := "Tractor",
    created := "T0" }

def demoPart : Part :=
  { id := "OIL_FILTER", name := "Oil Filter", part_number := "Z164",
    category := "Filter", stock := 5, min_stock := 1, unit := "ea",
    created := "T0" }

def demoData : Data :=
  { assets := [("TRACTOR_1", demoAsset)], parts := [("OIL_FILTER", demoPart)],
    service_events := [], transactions := [], modified := some "T1" }

def demoConfig : AsmConfig :=
  { asset_categories := DEFAULT_ASSET_CATEGORIES,
    part_categories := DEFAULT_PART_CATEGORIES,
    service_types := DEFAULT_SERVICE_TYPES,
    part_units := DEFAULT_PART_UNITS, modified := none }

def demoFullState : FullState :=
  { dat := demoData, cfg := demoConfig, backups := [] }

def demoBackup : BackupFile :=
  { version := "1.0", created := "T0", type_tag := "asm_backup", note := "",
    data := emptyData, config := none }

end Asm

namespace Str

def demoDetails : OffFarmDetails :=
  { reason := "Sold", date := "T0", from_location := "sw5", note := "" }

def offMob : Mob :=
  { id := "mob_aaaa1111", name := "Weaners 2025", cross := "Angus",
    age_class := "Weaners", head_count := 150, location := "",
    location_name := "", off_farm := true, off_farm_details := some demoDetails,
    attributes := [], notes := "", created := "T0", modified := "T0" }

def onMob : Mob :=
  { id := "mob_bbbb2222", name := "Cows 2024", cross := "Hereford",
    age_class := "Cows", head_count := 80, location := "sw5",
    location_name := "South West 5", off_farm := false,
    off_farm_details := none, attributes := ["vaccinated"], notes := "",
    created := "T0", modified := "T0" }

def demoMobs : MobsData :=
  { mobs := [("mob_aaaa1111", offMob), ("mob_bbbb2222", onMob)],
    movements := [], modified := some "T1" }

def demoConfig : Config :=
  { version := "1.0.0", age_classes := DEFAULT_AGE_CLASSES,
    crosses := DEFAULT_CROSSES, attributes := DEFAULT_ATTRIBUTES,
    off_farm_locations := DEFAULT_OFF_FARM_LOCATIONS, modified := none }

def demoRegistry : Registry :=
  { paddocks := [("sw5", { name := "South West 5" })] }

end Str

namespace Wss

def demoUser : User :=
  { id := "user_11111111", person_id := "person.bob", username := "bob",
    tracker_id := "device_tracker.bob", activity_id := "",
    notify_id := "notify.bob", enabled := true, track_external := false }

def demoUsers : Users :=
  { users := [("user_11111111", demoUser)], modified := none }

end Wss

/-
Supporting lemmas about the association-list and identifier helpers.
-/
namespace PaddiKV

theorem getA_setA_self {α : Type} (k : String) (v : α) (l : List (String × α)) :
    getA k (setA k v l) = some v := by
  induction l with
  | nil => simp [getA, setA]
  | cons hd t ih =>
    obtain ⟨k₀, v₀⟩ := hd
    by_cases h : k₀ = k <;> simp [getA, setA, h, ih]

theorem getA_setA_ne {α : Type} {k k₁ : String} (v : α) (l : List (String × α))
    (h : k₁ ≠ k) : getA k₁ (setA k v l) = getA k₁ l := by
  induction l with
  | nil => simp [getA, setA, Ne.symm h]
  | cons hd t ih =>
    obtain ⟨k₀, v₀⟩ := hd
    by_cases h₀ : k₀ = k
    · subst h₀
      simp [getA, setA, Ne.symm h]
    · simp only [setA, if_neg h₀, getA]
      by_cases h₁ : k₀ = k₁ <;> simp [h₁, ih]

theorem getA_eraseA_self {α : Type} (k : String) (l : List (String × α)) :
    getA k (eraseA k l) = none := by
  induction l with
  | nil => simp [getA, eraseA]
  | cons hd t ih =>
    obtain ⟨k₀, v₀⟩ := hd
    by_cases h : k₀ = k <;> simp_all [getA, eraseA, List.filter]

theorem getA_eraseA_ne {α : Type} {k k₁ : String} (l : List (String × α))
    (h : k₁ ≠ k) : getA k₁ (eraseA k l) = getA k₁ l := by
  induction l with
  | nil => simp [getA, eraseA]
  | cons hd t ih =>
    obtain ⟨k₀, v₀⟩ := hd
    by_cases h₀ : k₀ = k
    · subst h₀
      simp_all [getA, eraseA, List.filter, Ne.symm h]
    · by_cases h₁ : k₀ = k₁ <;> simp_all [getA, eraseA, List.filter]

theorem getA_modifyA_self {α : Type} (k : String) (f : α → α) (l : List (String × α)) :
    getA k (modifyA k f l) = (getA k l).map f := by
  induction l with
  | nil => simp [getA, modifyA]
  | cons hd t ih =>
    obtain ⟨k₀, v₀⟩ := hd
    by_cases h : k₀ = k <;> simp [getA, modifyA, h, ih]

theorem getA_modifyA_ne {α : Type} {k k₁ : String} (f : α → α) (l : List (String × α))
    (h : k₁ ≠ k) : getA k₁ (modifyA k f l) = getA k₁ l := by
  induction l with
  | nil => simp [modifyA]
  | cons hd t ih =>
    obtain ⟨k₀, v₀⟩ := hd
    by_cases h₀ : k₀ = k
    · subst h₀
      simp [getA, modifyA, Ne.symm h]
    · simp only [modifyA, if_neg h₀, getA]
      by_cases h₁ : k₀ = k₁ <;> simp [h₁, ih]

theorem mem_setA {α : Type} {p : String × α} {k : String} {v : α}
    {l : List (String × α)} (hp : p ∈ setA k v l) : p = (k, v) ∨ p ∈ l := by
  induction l with
  | nil => simpa [setA] using hp
  | cons hd t ih =>
    obtain ⟨k₀, v₀⟩ := hd
    by_cases h : k₀ = k
    · simp only [setA, if_pos h, List.mem_cons] at hp
      rcases hp with h₁ | h₁
      · exact Or.inl h₁
      · exact Or.inr (List.mem_cons_of_mem _ h₁)
    · simp only [setA, if_neg h, List.mem_cons] at hp
      rcases hp with h₁ | h₁
      · exact Or.inr (h₁ ▸ List.mem_cons_self _ _)
      · rcases ih h₁ with h₂ | h₂
        · exact Or.inl h₂
        · exact Or.inr (List.mem_cons_of_mem _ h₂)

theorem mem_modifyA {α : Type} {p : String × α} {k : String} {f : α → α}
    {l : List (String × α)} (hp : p ∈ modifyA k f l) :
    (∃ q ∈ l, p = (q.1, f q.2)) ∨ p ∈ l := by
  induction l with
  | nil => simp [modifyA] at hp
  | cons hd t ih =>
    obtain ⟨k₀, v₀⟩ := hd
    by_cases h : k₀ = k
    · simp only [modifyA, if_pos h, List.mem_cons] at hp
      rcases hp with h₁ | h₁
      · exact Or.inl ⟨(k₀, v₀), List.mem_cons_self _ _, h₁⟩
      · exact Or.inr (List.mem_cons_of_mem _ h₁)
    · simp only [modifyA, if_neg h, List.mem_cons] at hp
      rcases hp with h₁ | h₁
      · exact Or.inr (h₁ ▸ List.mem_cons_self _ _)
      · rcases ih h₁ with ⟨q, hq, he⟩ | h₂
        · exact Or.inl ⟨q, List.mem_cons_of_mem _ hq, he⟩
        · exact Or.inr (List.mem_cons_of_mem _ h₂)

theorem keysA_setA_mem {α : Type} (k : String) (v : α) (l : List (String × α))
    (h : getA k l ≠ none) : keysA (setA k v l) = keysA l := by
  induction l with
  | nil => simp [getA] at h
  | cons hd t ih =>
    obtain ⟨k₀, v₀⟩ := hd
    by_cases h₀ : k₀ = k
    · simp [setA, keysA, h₀]
    · simp only [getA, if_neg h₀] at h
      simp [setA, keysA, h₀, ih h] at *
      exact ih h

theorem keysA_modifyA {α : Type} (k : String) (f : α → α) (l : List (String × α)) :
    keysA (modifyA k f l) = keysA l := by
  induction l with
  | nil => rfl
  | cons hd t ih =>
    obtain ⟨k₀, v₀⟩ := hd
    by_cases h : k₀ = k <;> simp [modifyA, keysA, h, ih] at *
    exact ih

end PaddiKV

namespace PaddiId

theorem subRuns_mem {bad : Char → Bool} {l : List Char} {b : Bool} {c : Char}
    (hc : c ∈ subRuns bad l b) : c = '_' ∨ (c ∈ l ∧ bad c = false) := by
  induction l generalizing b with
  | nil => simp [subRuns] at hc
  | cons hd t ih =>
    by_cases hb : bad hd
    · by_cases hp : b
      · simp only [subRuns, if_pos hb, if_pos hp] at hc
        rcases ih hc with h | ⟨h₁, h₂⟩
        · exact Or.inl h
        · exact Or.inr ⟨List.mem_cons_of_mem _ h₁, h₂⟩
      · simp only [subRuns, if_pos hb, hp, Bool.false_eq_true, if_false,
          List.mem_cons] at hc
        rcases hc with hc | hc
        · exact Or.inl hc
        · rcases ih hc with h | ⟨h₁, h₂⟩
          · exact Or.inl h
          · exact Or.inr ⟨List.mem_cons_of_mem _ h₁, h₂⟩
    · simp only [subRuns, if_neg hb, List.mem_cons] at hc
      rcases hc with hc | hc
      · subst hc
        exact Or.inr ⟨List.mem_cons_self _ _, by simpa using hb⟩
      · rcases ih hc with h | ⟨h₁, h₂⟩
        · exact Or.inl h
        · exact Or.inr ⟨List.mem_cons_of_mem _ h₁, h₂⟩

theorem stripUnders_sublist (l : List Char) {c : Char}
    (hc : c ∈ stripUnders l) : c ∈ l := by
  unfold stripUnders at hc
  rw [List.mem_reverse] at hc
  have h₁ := List.dropWhile_sublist (l := (l.dropWhile (fun c => c = '_')).reverse)
    (p := fun c => c = '_')
  have h₂ := List.dropWhile_sublist (l := l) (p := fun c => c = '_')
  have := h₁.subset hc
  rw [List.mem_reverse] at this
  exact h₂.subset this

theorem cleanOf_chars (up : Char → Char) (name : String) {c : Char}
    (hc : c ∈ cleanOf up name) : goodChar c := by
  have h₁ := stripUnders_sublist _ hc
  rcases subRuns_mem h₁ with h | ⟨h₂, _⟩
  · exact Or.inl h
  · rcases subRuns_mem h₂ with h₃ | ⟨_, h₄⟩
    · exact Or.inl h₃
    · exact Or.inr (by simpa using h₄)

theorem generateIdCore_ne_empty (up : Char → Char) (maxLen : Nat)
    (hpos : 0 < maxLen) (name : String) : generateIdCore up maxLen name ≠ "" := by
  unfold generateIdCore
  by_cases h : cleanOf up name = []
  · simp [h]
  · simp only [h, if_false]
    intro hcontra
    have : (cleanOf up name).take maxLen = [] := by
      have := congrArg String.data hcontra
      simpa using this
    rcases List.take_eq_nil_iff.mp this with h₁ | h₁
    · omega
    · exact h h₁

theorem generateIdCore_length (up : Char → Char) (maxLen : Nat)
    (hbig : 7 ≤ maxLen) (name : String) :
    (generateIdCore up maxLen name).length ≤ maxLen := by
  unfold generateIdCore
  by_cases h : cleanOf up name = []
  · simp only [h, if_true]
    exact le_trans (by decide) hbig
  · simp only [h, if_false, String.length]
    exact List.length_take_le maxLen (cleanOf up name)

theorem generateIdCore_chars (up : Char → Char) (maxLen : Nat) (name : String)
    {c : Char} (hc : c ∈ (generateIdCore up maxLen name).data) : goodChar c := by
  unfold generateIdCore at hc
  by_cases h : cleanOf up name = []
  · simp only [h, if_true] at hc
    unfold goodChar isUpperAlnum
    fin_cases hc <;> simp
  · simp only [h, if_false] at hc
    exact cleanOf_chars up name (List.take_subset _ _ hc)

end PaddiId

/-
The claims.
-/

/-- C5: for every input string, generate_id returns a non-empty string
containing only uppercase letters, digits and underscores, of length at
most the module maximum (20 for ipm, 30 for asm), built by uppercasing
the name, collapsing each run of non-alphanumeric characters to a
single underscore, stripping outer underscores, and falling back to the
literal UNKNOWN exactly when the cleaned name is empty.  The statement
quantifies over the uppercasing function, so it covers the Unicode case
mapping of Python str.upper; the concrete ipm and asm wrappers use
Char.toUpper. -/
theorem claim_C5 (up : Char → Char) (name : String) :
    (PaddiId.generateIdCore up 20 name ≠ "" ∧
      (PaddiId.generateIdCore up 20 name).length ≤ 20 ∧
      (∀ c ∈ (PaddiId.generateIdCore up 20 name).data, PaddiId.goodChar c) ∧
      (PaddiId.cleanOf up name = [] →
        PaddiId.generateIdCore up 20 name = "UNKNOWN")) ∧
    (PaddiId.generateIdCore up 30 name ≠ "" ∧
      (PaddiId.generateIdCore up 30 name).length ≤ 30 ∧
      (∀ c ∈ (PaddiId.generateIdCore up 30 name).data, PaddiId.goodChar c) ∧
      (PaddiId.cleanOf up name = [] →
        PaddiId.generateIdCore up 30 name = "UNKNOWN")) ∧
    Ipm.generate_id name = PaddiId.generateIdCore Char.toUpper 20 name ∧
    Asm.generate_id name = PaddiId.generateIdCore Char.toUpper 30 name := by
  refine ⟨⟨?_, ?_, ?_, ?_⟩, ⟨?_, ?_, ?_, ?_⟩, rfl, rfl⟩
  · exact PaddiId.generateIdCore_ne_empty up 20 (by norm_num) name
  · exact PaddiId.generateIdCore_length up 20 (by norm_num) name
  · intro c hc
    exact PaddiId.generateIdCore_chars up 20 name hc
  · intro h
    simp [PaddiId.generateIdCore, h]
  · exact PaddiId.generateIdCore_ne_empty up 30 (by norm_num) name
  · exact PaddiId.generateIdCore_length up 30 (by norm_num) name
  · intro c hc
    exact PaddiId.generateIdCore_chars up 30 name hc
  · intro h
    simp [PaddiId.generateIdCore, h]

/-- C5 witness: the fallback branch of claim_C5 applied at an input
whose cleaned name is empty, together with concrete evaluations. -/
theorem claim_C5_witness :
    PaddiId.cleanOf Char.toUpper "@@@" = [] ∧
    PaddiId.generateIdCore Char.toUpper 20 "@@@" = "UNKNOWN" ∧
    Ipm.generate_id "Urea (46% N)" = "UREA_46_N" :=
  ⟨by decide, (claim_C5 Char.toUpper "@@@").1.2.2.2 (by decide), by decide⟩

/-- C2 counterexample: a present backing file whose bytes are not valid
UTF-8 makes load_inventory and load_mobs raise UnicodeDecodeError to the
caller (the except clause catches only json.JSONDecodeError and
IOError), instead of returning the empty default. -/
theorem claim_C2_counterexample :
    Ipm.load_inventory (.present .notUtf8) =
      .error PaddiFs.PyExc.unicodeDecodeError ∧
    Str.load_mobs (.present .notUtf8) =
      .error PaddiFs.PyExc.unicodeDecodeError :=
  ⟨rfl, rfl⟩

/-- C2 amended: load_inventory and load_mobs never raise and return the
module's documented empty default when the file is missing, unreadable
(IOError), or holds UTF-8 text that is not valid JSON, and return the
parsed document when it is valid JSON; but a present file whose bytes
are not valid UTF-8 raises UnicodeDecodeError to the caller. -/
theorem claim_C2 :
    (Ipm.load_inventory .absent = .ok Ipm.emptyInventory) ∧
    (Ipm.load_inventory (.present .ioFail) = .ok Ipm.emptyInventory) ∧
    (Ipm.load_inventory (.present .utf8NotJson) = .ok Ipm.emptyInventory) ∧
    (∀ d, Ipm.load_inventory (.present (.utf8Json d)) = .ok d) ∧
    (Ipm.load_inventory (.present .notUtf8) =
      .error PaddiFs.PyExc.unicodeDecodeError) ∧
    (Str.load_mobs .absent = .ok Str.emptyMobs) ∧
    (Str.load_mobs (.present .ioFail) = .ok Str.emptyMobs) ∧
    (Str.load_mobs (.present .utf8NotJson) = .ok Str.emptyMobs) ∧
    (∀ d, Str.load_mobs (.present (.utf8Json d)) = .ok d) ∧
    (Str.load_mobs (.present .notUtf8) =
      .error PaddiFs.PyExc.unicodeDecodeError) :=
  ⟨rfl, rfl, rfl, fun _ => rfl, rfl, rfl, rfl, rfl, fun _ => rfl, rfl⟩

/-- C4 counterexample: ipm save_inventory and asm save_data write the
document as given and do not stamp modified with the time of the save;
on a document whose modified field holds the older time T1, saving at
time T2 leaves T1 in the persisted file. -/
theorem claim_C4_counterexample :
    (Ipm.save_inventory "T2" Ipm.demoInventory).modified ≠ some "T2" ∧
    (Ipm.save_inventory "T2" Ipm.demoInventory).modified = some "T1" ∧
    (Asm.save_data "T2" Asm.demoData).modified ≠ some "T2" ∧
    (Asm.save_data "T2" Asm.demoData).modified = some "T1" := by
  refine ⟨by decide, rfl, by decide, rfl⟩

/-- C4 amended: only str save_mobs stamps modified with the time of the
save; ipm save_inventory and asm save_data persist the document exactly
as given (the config-save functions of all three modules do stamp). -/
theorem claim_C4 :
    (∀ now data, (Str.save_mobs now data).modified = some now) ∧
    (∀ now data, Ipm.save_inventory now data = data) ∧
    (∀ now data, Asm.save_data now data = data) ∧
    (∀ now config, (Ipm.save_config now config).modified = some now) ∧
    (∀ now config, (Asm.save_config now config).modified = some now) ∧
    (∀ now config, (Str.save_config now config).modified = some now) :=
  ⟨fun _ _ => rfl, fun _ _ => rfl, fun _ _ => rfl, fun _ _ => rfl,
   fun _ _ => rfl, fun _ _ => rfl⟩

/-
Supporting lemmas for the str claims.
-/
namespace PaddiKV

theorem getA_mem {α : Type} {k : String} {v : α} {l : List (String × α)}
    (h : getA k l = some v) : (k, v) ∈ l := by
  induction l with
  | nil => simp [getA] at h
  | cons hd t ih =>
    obtain ⟨k₀, v₀⟩ := hd
    simp only [getA] at h
    by_cases h₀ : k₀ = k
    · subst h₀
      rw [if_pos rfl] at h
      injection h with h
      subst h
      exact List.mem_cons_self _ _
    · rw [if_neg h₀] at h
      exact List.mem_cons_of_mem _ (ih h)

end PaddiKV

namespace Str

/-- Consistency is preserved by any state whose mobs table is the input
table with one consistent record written through a key. -/
theorem allConsistent_write {d : MobsData} (h : AllConsistent d) {k : String}
    {m : Mob} (hm : MobConsistent m) (d₂ : MobsData)
    (he : d₂.mobs = PaddiKV.setA k m d.mobs) : AllConsistent d₂ := by
  intro km hkm
  rw [he] at hkm
  rcases PaddiKV.mem_setA hkm with h₁ | h₁
  · subst h₁
    exact hm
  · exact h km h₁

theorem addMob_consistent (newId now name ageClass crossArg : String)
    (headCount : ℤ) (location : String) (attrs : List String) (notes : String)
    (cfg : Config) (reg : Registry) (data : MobsData)
    (h : AllConsistent data) :
    AllConsistent (cmd_add_mob newId now name ageClass crossArg headCount
      location attrs notes cfg reg data).state := by
  unfold cmd_add_mob
  dsimp only
  split
  · exact h
  · split
    · exact h
    · split
      · exact h
      · split
        · exact h
        · split <;>
          · refine allConsistent_write h ?_ _ rfl
            exact ⟨fun _ => rfl, fun hf => by simp at hf⟩

theorem editMob_consistent (now id : String)
    (name ageClass crossArg notes : Option String) (cfg : Config)
    (data : MobsData) (h : AllConsistent data) :
    AllConsistent (cmd_edit_mob now id name ageClass crossArg notes cfg
      data).state := by
  unfold cmd_edit_mob
  dsimp only
  cases hg : PaddiKV.getA id.pyStrip data.mobs with
  | none => exact h
  | some mob =>
    have hmob := h _ (PaddiKV.getA_mem hg)
    dsimp only
    split
    · exact h
    · split
      · exact h
      · cases name <;> cases ageClass <;> cases crossArg <;> cases notes <;>
        · refine allConsistent_write h ?_ _ rfl
          exact ⟨hmob.1, hmob.2⟩

theorem adjustCount_consistent (now id : String) (delta : ℤ)
    (reason note : String) (data : MobsData) (h : AllConsistent data) :
    AllConsistent (cmd_adjust_count now id delta reason note data).state := by
  unfold cmd_adjust_count
  dsimp only
  cases hg : PaddiKV.getA id.pyStrip data.mobs with
  | none => exact h
  | some mob =>
    have hmob := h _ (PaddiKV.getA_mem hg)
    dsimp only
    split
    · exact h
    · refine allConsistent_write h ?_ _ rfl
      exact ⟨hmob.1, hmob.2⟩

theorem moveMob_consistent (now id toLoc note : String) (reg : Registry)
    (data : MobsData) (h : AllConsistent data) :
    AllConsistent (cmd_move_mob now id toLoc note reg data).state := by
  unfold cmd_move_mob
  dsimp only
  cases hg : PaddiKV.getA id.pyStrip data.mobs with
  | none => exact h
  | some mob =>
    have hmob := h _ (PaddiKV.getA_mem hg)
    dsimp only
    split
    · exact h
    · rename_i hoff
      split
      · exact h
      · split
        · exact h
        · refine allConsistent_write h ?_ _ rfl
          exact ⟨fun _ => hmob.1 (by simpa using hoff),
                 fun hf => absurd hf (by simpa using hoff)⟩

theorem setOffFarm_consistent (now id reason note : String) (cfg : Config)
    (data : MobsData) (h : AllConsistent data) :
    AllConsistent (cmd_set_off_farm now id reason note cfg data).state := by
  unfold cmd_set_off_farm
  dsimp only
  cases hg : PaddiKV.getA id.pyStrip data.mobs with
  | none => exact h
  | some mob =>
    dsimp only
    split
    · exact h
    · split
      · exact h
      · split
        · exact h
        · refine allConsistent_write h ?_ _ rfl
          exact ⟨fun hf => by simp at hf, fun _ => ⟨rfl, rfl, rfl⟩⟩

theorem returnToFarm_consistent (now id toLoc note : String) (reg : Registry)
    (data : MobsData) (h : AllConsistent data) :
    AllConsistent (cmd_return_to_farm now id toLoc note reg data).state := by
  unfold cmd_return_to_farm
  dsimp only
  cases hg : PaddiKV.getA id.pyStrip data.mobs with
  | none => exact h
  | some mob =>
    dsimp only
    split
    · exact h
    · split
      · exact h
      · split
        · exact h
        · refine allConsistent_write h ?_ _ rfl
          exact ⟨fun _ => rfl, fun hf => by simp at hf⟩

theorem toggleAttribute_consistent (now id attributeArg : String)
    (cfg : Config) (data : MobsData) (h : AllConsistent data) :
    AllConsistent (cmd_toggle_attribute now id attributeArg cfg data).state := by
  unfold cmd_toggle_attribute
  dsimp only
  cases hg : PaddiKV.getA id.pyStrip data.mobs with
  | none => exact h
  | some mob =>
    have hmob := h _ (PaddiKV.getA_mem hg)
    dsimp only
    split
    · exact h
    · refine allConsistent_write h ?_ _ rfl
      exact ⟨hmob.1, hmob.2⟩

end Str

/-- C7: on an existing mob that is already off-farm, set_off_farm fails
with exit code 1 and an error message, performing no state change and
appending no movement entry (the persisted state is the unchanged input
state); symmetrically, return_to_farm on an existing mob that is not
off-farm is the same hard error, not a no-op. -/
theorem claim_C7 (now id reason note toLoc rnote : String) (cfg : Str.Config)
    (reg : Str.Registry) (data : Str.MobsData) (m : Str.Mob)
    (hm : PaddiKV.getA id.pyStrip data.mobs = some m) :
    (m.off_farm = true →
      Str.cmd_set_off_farm now id reason note cfg data =
        { exit := 1, out := "ERROR: Mob is already off-farm", state := data }) ∧
    (m.off_farm = false →
      Str.cmd_return_to_farm now id toLoc rnote reg data =
        { exit := 1, out := "ERROR: Mob is not off-farm", state := data }) := by
  constructor
  · intro hoff
    unfold Str.cmd_set_off_farm
    dsimp only
    rw [hm]
    dsimp only
    rw [if_pos hoff]
  · intro hoff
    unfold Str.cmd_return_to_farm
    dsimp only
    rw [hm]
    dsimp only
    rw [hoff]
    simp

/-- C7 witness: claim_C7 applied to the demo store, whose first mob is
off-farm and whose second mob is on-farm. -/
theorem claim_C7_witness :
    Str.cmd_set_off_farm "T2" "mob_aaaa1111" "Sold" "" Str.demoConfig
        Str.demoMobs =
      { exit := 1, out := "ERROR: Mob is already off-farm",
        state := Str.demoMobs } ∧
    Str.cmd_return_to_farm "T2" "mob_bbbb2222" "sw5" "" Str.demoRegistry
        Str.demoMobs =
      { exit := 1, out := "ERROR: Mob is not off-farm",
        state := Str.demoMobs } :=
  ⟨(claim_C7 "T2" "mob_aaaa1111" "Sold" "" "sw5" "" Str.demoConfig
      Str.demoRegistry Str.demoMobs Str.offMob (by decide)).1 (by decide),
   (claim_C7 "T2" "mob_bbbb2222" "Sold" "" "sw5" "" Str.demoConfig
      Str.demoRegistry Str.demoMobs Str.onMob (by decide)).2 (by decide)⟩

/-- C10: every STR mutation operation other than import_backup (add_mob,
edit_mob, adjust_count, move_mob, set_off_farm, return_to_farm,
toggle_attribute) preserves, for every mob in the store, the
consistency property that an on-farm mob has a null details object and
an off-farm mob has a populated details object together with empty
location and location_name fields. -/
theorem claim_C10 (o : Str.Op) (data : Str.MobsData)
    (h : Str.AllConsistent data) : Str.AllConsistent (Str.applyOp o data) := by
  cases o with
  | add newId now name ageClass cross headCount location attrs notes cfg reg =>
    exact Str.addMob_consistent newId now name ageClass cross headCount
      location attrs notes cfg reg data h
  | edit now id name ageClass cross notes cfg =>
    exact Str.editMob_consistent now id name ageClass cross notes cfg data h
  | adjust now id delta reason note =>
    exact Str.adjustCount_consistent now id delta reason note data h
  | move now id toLoc note reg =>
    exact Str.moveMob_consistent now id toLoc note reg data h
  | offFarm now id reason note cfg =>
    exact Str.setOffFarm_consistent now id reason note cfg data h
  | ret now id toLoc note reg =>
    exact Str.returnToFarm_consistent now id toLoc note reg data h
  | toggle now id attr cfg =>
    exact Str.toggleAttribute_consistent now id attr cfg data h

/-- C10 witness: the demo store is consistent, and claim_C10 applied to
a return_to_farm invocation on it keeps it consistent. -/
theorem claim_C10_witness :
    Str.AllConsistent Str.demoMobs ∧
    Str.AllConsistent (Str.applyOp
      (Str.Op.ret "T2" "mob_aaaa1111" "sw5" "" Str.demoRegistry)
      Str.demoMobs) := by
  have hc : Str.AllConsistent Str.demoMobs := by
    intro km hkm
    simp only [Str.demoMobs, List.mem_cons, List.not_mem_nil, or_false] at hkm
    rcases hkm with h | h <;> subst h
    · exact ⟨fun hf => absurd hf (by decide), fun _ => by decide⟩
    · exact ⟨fun _ => by decide, fun hf => absurd hf (by decide)⟩
  exact ⟨hc, claim_C10 _ _ hc⟩

/-- C6 counterexample: the seeded default age class Calves, a built-in
vocabulary entry, is removable by str cmd_remove_age_class when no mob
references it — the command succeeds and the entry is gone, so built-in
entries are not protected in the str module. -/
theorem claim_C6_counterexample :
    "Calves" ∈ Str.DEFAULT_AGE_CLASSES ∧
    "Calves" ∈ Str.demoConfig.age_classes ∧
    (Str.cmd_remove_age_class "T2" "Calves" Str.demoConfig Str.emptyMobs).exit
      = 0 ∧
    "Calves" ∉ (Str.cmd_remove_age_class "T2" "Calves" Str.demoConfig
      Str.emptyMobs).state.age_classes :=
  ⟨by decide, by decide, by decide, by decide⟩

/-- C6 amended: the never-removable guarantee for built-in entries holds
for the ipm standard actives: cmd_remove_active refuses to remove a
standard active, refuses to remove a custom active referenced by at
least one product (no write in either case), and removes an
unreferenced custom active (every case-variant of the matched name is
removed and nothing else is).  The str age classes carry no built-in
protection: any configured age class, seeded defaults included, is
removed when no mob references it, while one referenced by a mob makes
the command fail with an in-use error and no write. -/
theorem claim_C6 (now name : String) (cfg : Ipm.Config) (data : Ipm.Inventory)
    (scfg : Str.Config) (sdata : Str.MobsData) :
    (name.pyStrip ≠ "" →
      Ipm.STANDARD_ACTIVES.any
        (fun std => std.pyLower = name.pyStrip.pyLower) = true →
      Ipm.cmd_remove_active now name cfg data =
        { exit := 1, out := "ERROR: Cannot remove standard active",
          state := cfg }) ∧
    (∀ a rest, name.pyStrip ≠ "" →
      ¬ Ipm.STANDARD_ACTIVES.any
        (fun std => std.pyLower = name.pyStrip.pyLower) = true →
      cfg.custom_actives.filter
        (fun x => x.name.pyLower = name.pyStrip.pyLower) = a :: rest →
      data.products.filter (fun kp => kp.2.active_constituents.any
        (fun x => x.name.pyLower = a.name.pyLower)) ≠ [] →
      Ipm.cmd_remove_active now name cfg data =
        { exit := 1, out := "ERROR: Cannot remove active in use",
          state := cfg }) ∧
    (∀ a rest, name.pyStrip ≠ "" →
      ¬ Ipm.STANDARD_ACTIVES.any
        (fun std => std.pyLower = name.pyStrip.pyLower) = true →
      cfg.custom_actives.filter
        (fun x => x.name.pyLower = name.pyStrip.pyLower) = a :: rest →
      data.products.filter (fun kp => kp.2.active_constituents.any
        (fun x => x.name.pyLower = a.name.pyLower)) = [] →
      (Ipm.cmd_remove_active now name cfg data).exit = 0 ∧
      (∀ b ∈ (Ipm.cmd_remove_active now name cfg data).state.custom_actives,
        b ∈ cfg.custom_actives ∧ b.name.pyLower ≠ a.name.pyLower) ∧
      (∀ b ∈ cfg.custom_actives, b.name.pyLower ≠ a.name.pyLower →
        b ∈ (Ipm.cmd_remove_active now name cfg data).state.custom_actives)) ∧
    (name.pyStrip ≠ "" → name.pyStrip ∈ scfg.age_classes →
      (∃ km ∈ sdata.mobs, km.2.age_class = name.pyStrip) →
      Str.cmd_remove_age_class now name scfg sdata =
        { exit := 1, out := "ERROR: Age class is in use", state := scfg }) ∧
    (name.pyStrip ≠ "" → name.pyStrip ∈ scfg.age_classes →
      (∀ km ∈ sdata.mobs, km.2.age_class ≠ name.pyStrip) →
      (Str.cmd_remove_age_class now name scfg sdata).exit = 0 ∧
      name.pyStrip ∉
        (Str.cmd_remove_age_class now name scfg sdata).state.age_classes ∧
      (∀ c ∈ scfg.age_classes, c ≠ name.pyStrip →
        c ∈ (Str.cmd_remove_age_class now name scfg sdata).state.age_classes)) := by
  refine ⟨?_, ?_, ?_, ?_, ?_⟩
  · intro h1 h2
    unfold Ipm.cmd_remove_active
    dsimp only
    rw [if_neg h1, if_pos h2]
  · intro a rest h1 h2 hf hused
    unfold Ipm.cmd_remove_active
    dsimp only
    rw [if_neg h1, if_neg h2, hf]
    dsimp only
    rw [if_pos hused]
  · intro a rest h1 h2 hf hunused
    unfold Ipm.cmd_remove_active
    dsimp only
    rw [if_neg h1, if_neg h2, hf]
    dsimp only
    rw [if_neg (by simp [hunused])]
    refine ⟨rfl, ?_, ?_⟩
    · intro b hb
      simp only [Ipm.save_config] at hb
      rw [List.mem_filter] at hb
      exact ⟨hb.1, by simpa using hb.2⟩
    · intro b hb hne
      simp only [Ipm.save_config]
      rw [List.mem_filter]
      exact ⟨hb, by simpa using hne⟩
  · intro h1 h2 h3
    unfold Str.cmd_remove_age_class
    dsimp only
    rw [if_neg h1, if_neg (by simpa using h2)]
    rw [if_pos (by simpa using h3)]
  · intro h1 h2 h3
    unfold Str.cmd_remove_age_class
    dsimp only
    rw [if_neg h1, if_neg (by simpa using h2)]
    rw [if_neg (by simpa using h3)]
    refine ⟨rfl, ?_, ?_⟩
    · simp only [Str.save_config]
      intro hmem
      rw [List.mem_filter] at hmem
      simp at hmem
    · intro c hc hne
      simp only [Str.save_config]
      rw [List.mem_filter]
      exact ⟨hc, by simpa using hne⟩

/-- C6 witness: claim_C6 applied to the demo config, whose custom active
MyActive is referenced by the demo product and whose custom active
SpareActive is unreferenced, and to the demo mob store, whose age class
Weaners is in use while Calves is not. -/
theorem claim_C6_witness :
    Ipm.cmd_remove_active "T2" "Glyphosate" Ipm.demoConfig Ipm.demoInventory =
      { exit := 1, out := "ERROR: Cannot remove standard active",
        state := Ipm.demoConfig } ∧
    Ipm.cmd_remove_active "T2" "myactive" Ipm.demoConfig Ipm.demoInventory =
      { exit := 1, out := "ERROR: Cannot remove active in use",
        state := Ipm.demoConfig } ∧
    (Ipm.cmd_remove_active "T2" "SpareActive" Ipm.demoConfig
      Ipm.demoInventory).exit = 0 ∧
    Str.cmd_remove_age_class "T2" "Weaners" Str.demoConfig Str.demoMobs =
      { exit := 1, out := "ERROR: Age class is in use",
        state := Str.demoConfig } ∧
    (Str.cmd_remove_age_class "T2" "Calves" Str.demoConfig Str.demoMobs).exit
      = 0 := by
  refine ⟨?_, ?_, ?_, ?_, ?_⟩
  · exact (claim_C6 "T2" "Glyphosate" Ipm.demoConfig Ipm.demoInventory
      Str.demoConfig Str.demoMobs).1 (by decide) (by decide)
  · exact (claim_C6 "T2" "myactive" Ipm.demoConfig Ipm.demoInventory
      Str.demoConfig Str.demoMobs).2.1
      { name := "MyActive", common_groups := ["2"], created := "T0" } []
      (by decide) (by decide) (by decide) (by decide)
  · exact ((claim_C6 "T2" "SpareActive" Ipm.demoConfig Ipm.demoInventory
      Str.demoConfig Str.demoMobs).2.2.1
      { name := "SpareActive", common_groups := [], created := "T0" } []
      (by decide) (by decide) (by decide) (by decide)).1
  · exact (claim_C6 "T2" "Weaners" Ipm.demoConfig Ipm.demoInventory
      Str.demoConfig Str.demoMobs).2.2.2.1 (by decide) (by decide)
      ⟨("mob_aaaa1111", Str.offMob), by decide, by decide⟩
  · exact ((claim_C6 "T2" "Calves" Ipm.demoConfig Ipm.demoInventory
      Str.demoConfig Str.demoMobs).2.2.2.2 (by decide) (by decide)
      (by decide)).1

/-
Key-set lemmas used by the create-operation claim.
-/
namespace PaddiKV

theorem getA_eq_none_iff {α : Type} {k : String} {l : List (String × α)} :
    getA k l = none ↔ k ∉ keysA l := by
  induction l with
  | nil => simp [getA, keysA]
  | cons hd t ih =>
    obtain ⟨k₀, v₀⟩ := hd
    by_cases h₀ : k₀ = k
    · subst h₀
      constructor
      · intro h
        simp [getA] at h
      · intro h
        exact absurd (by simp [keysA]) h
    · constructor
      · intro h hk
        simp only [getA, if_neg h₀] at h
        simp only [keysA, List.map_cons, List.mem_cons] at hk
        rcases hk with hk | hk
        · exact h₀ hk.symm
        · exact (ih.mp h) hk
      · intro h
        simp only [getA, if_neg h₀]
        refine ih.mpr (fun hk => h ?_)
        simp only [keysA, List.map_cons, List.mem_cons]
        exact Or.inr hk

theorem keysA_setA_fresh {α : Type} {k : String} (v : α)
    {l : List (String × α)} (h : getA k l = none) :
    keysA (setA k v l) = keysA l ++ [k] := by
  induction l with
  | nil => simp [setA, keysA]
  | cons hd t ih =>
    obtain ⟨k₀, v₀⟩ := hd
    by_cases h₀ : k₀ = k
    · subst h₀
      simp [getA] at h
    · simp only [getA, if_neg h₀] at h
      simp [setA, keysA, h₀, ih h] at *
      exact ih h

theorem nodupKeys_setA_fresh {α : Type} {k : String} {v : α}
    {l : List (String × α)} (h : getA k l = none)
    (hnd : (keysA l).Nodup) : (keysA (setA k v l)).Nodup := by
  rw [keysA_setA_fresh v h]
  simp only [List.nodup_append, List.nodup_singleton, true_and, hnd,
    List.disjoint_singleton]
  exact getA_eq_none_iff.mp h

end PaddiKV

/-- C3 counterexample: ipm cmd_add_product on a name whose generated id
already exists fails with an already-exists error and exit code 1 — it
does not return the existing record's id with an OK result (also, the
ipm natural key is derived from the name alone; the location argument
plays no part in the collision check). -/
theorem claim_C3_counterexample :
    Ipm.generate_id "Urea" = "UREA" ∧
    PaddiKV.getA "UREA" Ipm.demoInventory.products = some Ipm.demoProduct ∧
    Ipm.cmd_add_product "T2" "Urea" "Fertiliser" "" "kg" "" 0 0 []
        Ipm.demoInventory =
      { exit := 1, out := "ERROR: Product already exists",
        state := Ipm.demoInventory } :=
  ⟨by decide, by decide, by decide⟩

/-- C3 amended: on a natural-key collision the wss add_user command
returns the existing user's id (exit 0, OK:updated output), updates the
record in place and adds no record, while the ipm add_product command
fails with an already-exists error and performs no write — it does not
return the existing id; in both collections the generated id stays
unique: a fresh wss insert appends exactly the new id, and any
add_product outcome preserves distinctness of the product keys. -/
theorem claim_C3 (newId now personId username tracker activity notify
    name category subcategory unit location : String)
    (min_stock initial_stock : ℤ) (actives : List Ipm.Active)
    (udata : Wss.Users) (uid : String) (idata : Ipm.Inventory) :
    (personId.pyStrip ≠ "" →
      Wss.findByPersonId personId.pyStrip udata.users = some uid →
      (Wss.cmd_add_user newId now personId username tracker activity notify
        udata).exit = 0 ∧
      (Wss.cmd_add_user newId now personId username tracker activity notify
        udata).out = "OK:updated:" ++ uid ∧
      PaddiKV.keysA (Wss.cmd_add_user newId now personId username tracker
        activity notify udata).state.users = PaddiKV.keysA udata.users) ∧
    (personId.pyStrip ≠ "" →
      Wss.findByPersonId personId.pyStrip udata.users = none →
      newId ∉ PaddiKV.keysA udata.users →
      (Wss.cmd_add_user newId now personId username tracker activity notify
        udata).out = "OK:added:" ++ newId ∧
      PaddiKV.keysA (Wss.cmd_add_user newId now personId username tracker
        activity notify udata).state.users =
        PaddiKV.keysA udata.users ++ [newId] ∧
      ((PaddiKV.keysA udata.users).Nodup →
        (PaddiKV.keysA (Wss.cmd_add_user newId now personId username tracker
          activity notify udata).state.users).Nodup)) ∧
    ((PaddiKV.getA (Ipm.generate_id name) idata.products).isSome →
      Ipm.cmd_add_product now name category subcategory unit location
        min_stock initial_stock actives idata =
      { exit := 1, out := "ERROR: Product already exists", state := idata }) ∧
    ((PaddiKV.keysA idata.products).Nodup →
      (PaddiKV.keysA (Ipm.cmd_add_product now name category subcategory unit
        location min_stock initial_stock actives idata).state.products).Nodup) := by
  refine ⟨?_, ?_, ?_, ?_⟩
  · intro h1 h2
    unfold Wss.cmd_add_user
    dsimp only
    rw [if_neg h1, h2]
    exact ⟨rfl, rfl, PaddiKV.keysA_modifyA _ _ _⟩
  · intro h1 h2 h3
    unfold Wss.cmd_add_user
    dsimp only
    rw [if_neg h1, h2]
    dsimp only
    have hfresh : PaddiKV.getA newId udata.users = none :=
      PaddiKV.getA_eq_none_iff.mpr h3
    exact ⟨rfl, PaddiKV.keysA_setA_fresh _ hfresh,
      fun hnd => PaddiKV.nodupKeys_setA_fresh hfresh hnd⟩
  · intro h1
    unfold Ipm.cmd_add_product
    dsimp only
    rw [if_pos h1]
  · intro hnd
    unfold Ipm.cmd_add_product
    dsimp only
    split
    · exact hnd
    · rename_i hfresh
      have hnone : PaddiKV.getA (Ipm.generate_id name) idata.products
          = none := by
        cases hg : PaddiKV.getA (Ipm.generate_id name) idata.products
        · rfl
        · exact absurd (by simp [hg]) hfresh
      split
      · exact hnd
      · split
        · exact hnd
        · by_cases haddi : initial_stock > 0 ∧ location ≠ ""
          · simp only [if_pos haddi]
            exact PaddiKV.nodupKeys_setA_fresh hnone hnd
          · simp only [if_neg haddi]
            exact PaddiKV.nodupKeys_setA_fresh hnone hnd

/-- C3 witness: claim_C3 applied to the demo user store (existing
person_id person.bob, fresh person person.amy) and to the demo
inventory (fresh product name, distinct keys). -/
theorem claim_C3_witness :
    (Wss.cmd_add_user "user_22222222" "T2" "person.bob" "Bobby" "t" "a" "n"
      Wss.demoUsers).out = "OK:updated:user_11111111" ∧
    (Wss.cmd_add_user "user_33333333" "T2" "person.amy" "Amy" "t" "a" "n"
      Wss.demoUsers).out = "OK:added:user_33333333" ∧
    (PaddiKV.keysA (Ipm.cmd_add_product "T2" "MAP" "Fertiliser" "" "kg" "" 0 0
      [] Ipm.demoInventory).state.products).Nodup := by
  refine ⟨?_, ?_, ?_⟩
  · exact ((claim_C3 "user_22222222" "T2" "person.bob" "Bobby" "t" "a" "n"
      "MAP" "Fertiliser" "" "kg" "" 0 0 [] Wss.demoUsers "user_11111111"
      Ipm.demoInventory).1 (by decide) (by decide)).2.1
  · exact ((claim_C3 "user_33333333" "T2" "person.amy" "Amy" "t" "a" "n"
      "MAP" "Fertiliser" "" "kg" "" 0 0 [] Wss.demoUsers "user_11111111"
      Ipm.demoInventory).2.1 (by decide) (by decide) (by decide)).1
  · exact (claim_C3 "user_33333333" "T2" "person.amy" "Amy" "t" "a" "n"
      "MAP" "Fertiliser" "" "kg" "" 0 0 [] Wss.demoUsers "user_11111111"
      Ipm.demoInventory).2.2.2 (by decide)

/-- C8: importing a valid backup file succeeds, first appending the
automatic pre-import snapshot of the current state to the backup
directory, and running import_backup on that snapshot afterwards
succeeds and returns the document record content to the state it had
immediately before the first import (double-undo round-trip), in both
the ipm and asm modules. -/
theorem claim_C8 (n₁ n₂ : String) (st : Ipm.FullState) (b : Ipm.BackupFile)
    (hb : b.type_tag = "ipm_backup") (ast : Asm.FullState)
    (ab : Asm.BackupFile) (hab : ab.type_tag = "asm_backup") :
    ((Ipm.cmd_import n₁ b st).exit = 0 ∧
     Ipm.preImportBackup n₁ st ∈ (Ipm.cmd_import n₁ b st).state.backups ∧
     (Ipm.cmd_import n₂ (Ipm.preImportBackup n₁ st)
        (Ipm.cmd_import n₁ b st).state).exit = 0 ∧
     (Ipm.cmd_import n₂ (Ipm.preImportBackup n₁ st)
        (Ipm.cmd_import n₁ b st).state).state.inv = st.inv) ∧
    ((Asm.cmd_import n₁ ab ast).exit = 0 ∧
     Asm.preImportBackup n₁ ast ∈ (Asm.cmd_import n₁ ab ast).state.backups ∧
     (Asm.cmd_import n₂ (Asm.preImportBackup n₁ ast)
        (Asm.cmd_import n₁ ab ast).state).exit = 0 ∧
     (Asm.cmd_import n₂ (Asm.preImportBackup n₁ ast)
        (Asm.cmd_import n₁ ab ast).state).state.dat = ast.dat) := by
  constructor
  · unfold Ipm.cmd_import
    rw [if_neg (by simp [hb]), if_neg (by simp [Ipm.preImportBackup])]
    cases hcfg : b.config with
    | none =>
      refine ⟨rfl, by simp, rfl, ?_⟩
      cases hc₂ : (Ipm.preImportBackup n₁ st).config with
      | none => simp [Ipm.preImportBackup] at hc₂
      | some c₂ =>
        simp only [Ipm.preImportBackup, Option.some.injEq] at hc₂
        subst hc₂
        rfl
    | some c =>
      refine ⟨rfl, by simp, rfl, ?_⟩
      cases hc₂ : (Ipm.preImportBackup n₁ st).config with
      | none => simp [Ipm.preImportBackup] at hc₂
      | some c₂ =>
        simp only [Ipm.preImportBackup, Option.some.injEq] at hc₂
        subst hc₂
        rfl
  · unfold Asm.cmd_import
    rw [if_neg (by simp [hab]), if_neg (by simp [Asm.preImportBackup])]
    cases hcfg : ab.config with
    | none =>
      refine ⟨rfl, by simp, rfl, ?_⟩
      cases hc₂ : (Asm.preImportBackup n₁ ast).config with
      | none => simp [Asm.preImportBackup] at hc₂
      | some c₂ =>
        simp only [Asm.preImportBackup, Option.some.injEq] at hc₂
        subst hc₂
        rfl
    | some c =>
      refine ⟨rfl, by simp, rfl, ?_⟩
      cases hc₂ : (Asm.preImportBackup n₁ ast).config with
      | none => simp [Asm.preImportBackup] at hc₂
      | some c₂ =>
        simp only [Asm.preImportBackup, Option.some.injEq] at hc₂
        subst hc₂
        rfl

/-- C8 witness: claim_C8 applied to the demo states and demo backup
files, whose type markers are the expected module tags. -/
theorem claim_C8_witness :
    Ipm.demoBackup.type_tag = "ipm_backup" ∧
    (Ipm.cmd_import "T2" Ipm.demoBackup Ipm.demoFullState).exit = 0 ∧
    Ipm.preImportBackup "T2" Ipm.demoFullState ∈
      (Ipm.cmd_import "T2" Ipm.demoBackup Ipm.demoFullState).state.backups ∧
    (Ipm.cmd_import "T3" (Ipm.preImportBackup "T2" Ipm.demoFullState)
      (Ipm.cmd_import "T2" Ipm.demoBackup Ipm.demoFullState).state).state.inv =
      Ipm.demoFullState.inv :=
  have h := claim_C8 "T2" "T3" Ipm.demoFullState Ipm.demoBackup rfl
    Asm.demoFullState Asm.demoBackup rfl
  ⟨rfl, h.1.1, h.1.2.1, h.1.2.2.2⟩

/-
Lemmas about the part-deduction loop of cmd_record_service.
-/
namespace Asm

theorem deduct_foldl_not_mem (l : List (String × ℤ))
    (ps : List (String × Part)) (pid : String) (h : pid ∉ l.map Prod.fst) :
    PaddiKV.getA pid (l.foldl (fun ps pc => PaddiKV.modifyA pc.1
      (fun p => { p with stock := max 0 (p.stock - pc.2) }) ps) ps) =
    PaddiKV.getA pid ps := by
  induction l generalizing ps with
  | nil => rfl
  | cons hd t ih =>
    obtain ⟨k, q⟩ := hd
    simp only [List.map_cons, List.mem_cons, not_or] at h
    rw [List.foldl_cons, ih _ h.2]
    exact PaddiKV.getA_modifyA_ne _ _ h.1

theorem deduct_foldl_mem (l : List (String × ℤ)) (ps : List (String × Part))
    (pid : String) (q : ℤ) (hnd : (l.map Prod.fst).Nodup)
    (hm : (pid, q) ∈ l) :
    PaddiKV.getA pid (l.foldl (fun ps pc => PaddiKV.modifyA pc.1
      (fun p => { p with stock := max 0 (p.stock - pc.2) }) ps) ps) =
    (PaddiKV.getA pid ps).map
      (fun p => { p with stock := max 0 (p.stock - q) }) := by
  induction l generalizing ps with
  | nil => simp at hm
  | cons hd t ih =>
    obtain ⟨k, q₀⟩ := hd
    simp only [List.map_cons, List.nodup_cons] at hnd
    rcases List.mem_cons.mp hm with he | ht
    · injection he with he₁ he₂
      subst he₁
      subst he₂
      rw [List.foldl_cons,
        deduct_foldl_not_mem t _ pid hnd.1,
        PaddiKV.getA_modifyA_self]
    · have hne : pid ≠ k := by
        intro hcontra
        subst hcontra
        exact hnd.1 (List.mem_map.mpr ⟨(pid, q), ht, rfl⟩)
      rw [List.foldl_cons, ih _ hnd.2 ht,
        PaddiKV.getA_modifyA_ne _ _ hne]

end Asm

/-- C9: record_service validates that the referenced asset exists,
failing with a not-found error and no write otherwise; on success the
single persisted state carries, in the same save, exactly one new
service event (whose consumed-parts list is exactly the parsed request
entries that name an existing part with positive quantity), exactly one
new audit transaction, and the stock decrements: each consumed part's
stock is its previous stock minus the consumed quantity clamped at
zero, every other part's stock is untouched. -/
theorem claim_C9 (now dateStr asset serviceType notes hours : String)
    (partsReq consumed : List (String × ℤ)) (data : Asm.Data)
    (hcons : consumed =
      (partsReq.map (fun it => (it.1.pyStrip.pyUpper, it.2))).filter
        (fun it => it.1 ≠ "" ∧ (PaddiKV.getA it.1 data.parts).isSome ∧
          it.2 > 0)) :
    ((PaddiKV.getA asset.pyStrip.pyUpper data.assets = none) →
      Asm.cmd_record_service now dateStr asset serviceType partsReq notes
        hours data =
      { exit := 1, out := "ERROR: Asset not found", state := data }) ∧
    (∀ theAsset,
      PaddiKV.getA asset.pyStrip.pyUpper data.assets = some theAsset →
      (Asm.cmd_record_service now dateStr asset serviceType partsReq notes
        hours data).exit = 0 ∧
      (Asm.cmd_record_service now dateStr asset serviceType partsReq notes
        hours data).state.service_events.length =
        data.service_events.length + 1 ∧
      (∀ e ∈ (Asm.cmd_record_service now dateStr asset serviceType partsReq
          notes hours data).state.service_events,
        e ∈ data.service_events ∨
        (e.parts_consumed = consumed ∧
          ∀ pc ∈ consumed,
            (PaddiKV.getA pc.1 data.parts).isSome ∧ 0 < pc.2)) ∧
      (Asm.cmd_record_service now dateStr asset serviceType partsReq notes
        hours data).state.transactions.length =
        data.transactions.length + 1 ∧
      ((consumed.map Prod.fst).Nodup →
        (∀ pc ∈ consumed,
          Asm.stockOf (Asm.cmd_record_service now dateStr asset serviceType
            partsReq notes hours data).state pc.1 =
          max 0 (Asm.stockOf data pc.1 - pc.2)) ∧
        (∀ pid, pid ∉ consumed.map Prod.fst →
          Asm.stockOf (Asm.cmd_record_service now dateStr asset serviceType
            partsReq notes hours data).state pid =
          Asm.stockOf data pid))) := by
  constructor
  · intro h
    unfold Asm.cmd_record_service
    dsimp only
    rw [h]
  · intro theAsset h
    unfold Asm.cmd_record_service
    dsimp only
    rw [h]
    dsimp only
    rw [← hcons]
    refine ⟨rfl, by simp [Asm.save_data, Asm.log_transaction], ?_,
      by simp [Asm.save_data, Asm.log_transaction], ?_⟩
    · intro e he
      simp only [Asm.save_data, Asm.log_transaction] at he
      rw [List.mem_append] at he
      rcases he with he | he
      · exact Or.inl he
      · have he₂ := List.mem_singleton.mp he
        subst he₂
        refine Or.inr ⟨rfl, ?_⟩
        intro pc hpc
        rw [hcons, List.mem_filter] at hpc
        have h₂ := hpc.2
        simp only [decide_eq_true_eq] at h₂
        exact ⟨h₂.2.1, h₂.2.2⟩
    · intro hnd
      constructor
      · intro pc hpc
        have hsome : (PaddiKV.getA pc.1 data.parts).isSome := by
          rw [hcons, List.mem_filter] at hpc
          have := hpc.2
          simp only [decide_eq_true_eq] at this
          exact this.2.1
        obtain ⟨p, hp⟩ := Option.isSome_iff_exists.mp hsome
        unfold Asm.stockOf
        dsimp only [Asm.save_data, Asm.log_transaction]
        rw [Asm.deduct_foldl_mem consumed data.parts pc.1 pc.2 hnd
          (by simpa using hpc), hp]
        rfl
      · intro pid hpid
        unfold Asm.stockOf
        dsimp only [Asm.save_data, Asm.log_transaction]
        rw [Asm.deduct_foldl_not_mem consumed data.parts pid hpid]

/-- C9 witness: claim_C9 applied to the demo data: a missing asset is a
hard error, and a valid service on TRACTOR_1 consuming two OIL_FILTER
units clamps the filter stock from 5 to 3 in the same persisted save as
the new event and audit entry. -/
theorem claim_C9_witness :
    Asm.cmd_record_service "T2" "20260101" "ABSENT" "Repair"
        [("OIL_FILTER", 2)] "" "" Asm.demoData =
      { exit := 1, out := "ERROR: Asset not found", state := Asm.demoData } ∧
    (Asm.cmd_record_service "T2" "20260101" "tractor_1" "Repair"
      [("OIL_FILTER", 2)] "" "" Asm.demoData).exit = 0 ∧
    Asm.stockOf (Asm.cmd_record_service "T2" "20260101" "tractor_1" "Repair"
      [("OIL_FILTER", 2)] "" "" Asm.demoData).state "OIL_FILTER" =
      max 0 (Asm.stockOf Asm.demoData "OIL_FILTER" - 2) := by
  have h₁ := (claim_C9 "T2" "20260101" "ABSENT" "Repair" "" ""
    [("OIL_FILTER", 2)] [("OIL_FILTER", 2)] Asm.demoData (by decide)).1
    (by decide)
  have h₂ := (claim_C9 "T2" "20260101" "tractor_1" "Repair" "" ""
    [("OIL_FILTER", 2)] [("OIL_FILTER", 2)] Asm.demoData (by decide)).2
    Asm.demoAsset (by decide)
  exact ⟨h₁, h₂.1, (h₂.2.2.2.2 (by decide)).1 ("OIL_FILTER", 2)
    (by decide)⟩

/-
Non-negativity lemmas for the quantity-adjustment claims.
-/
namespace PaddiKV

theorem mem_eraseA {α : Type} {p : String × α} {k : String}
    {l : List (String × α)} (hp : p ∈ eraseA k l) : p ∈ l :=
  (List.mem_filter.mp hp).1

end PaddiKV

namespace Ipm

theorem moveStock_nonneg (now id location note : String) (delta : ℤ)
    (data : Inventory) (h : NonNeg data) :
    NonNeg (cmd_move_stock now id location delta note data).state := by
  unfold cmd_move_stock
  dsimp only
  cases hg : PaddiKV.getA id.pyStrip.pyUpper data.products with
  | none => exact h
  | some product =>
    have hprod := PaddiKV.getA_mem hg
    dsimp only
    split
    · exact h
    · intro kp hkp lv hlv
      dsimp only [save_inventory, log_transaction] at hkp
      rcases PaddiKV.mem_setA hkp with h₁ | h₁
      · subst h₁
        dsimp only at hlv
        split at hlv
        · rcases PaddiKV.mem_setA hlv with h₂ | h₂
          · subst h₂
            exact le_max_left 0 _
          · exact h _ hprod lv h₂
        · exact h _ hprod lv (PaddiKV.mem_eraseA hlv)
      · exact h kp h₁ lv hlv

theorem applyMoves_nonneg (ops : List MoveArgs) (data : Inventory)
    (h : NonNeg data) : NonNeg (applyMoves ops data) := by
  induction ops generalizing data with
  | nil => exact h
  | cons a t ih =>
    exact ih _ (moveStock_nonneg a.now a.id a.location a.note a.delta data h)

end Ipm

namespace Asm

theorem adjustStock_nonneg (now id : String) (delta : ℤ) (data : Data)
    (h : NonNeg data) : NonNeg (cmd_adjust_stock now id delta data).state := by
  unfold cmd_adjust_stock
  dsimp only
  cases hg : PaddiKV.getA id.pyStrip.pyUpper data.parts with
  | none => exact h
  | some part =>
    dsimp only
    split
    · exact h
    · intro kp hkp
      dsimp only [save_data, log_transaction] at hkp
      rcases PaddiKV.mem_setA hkp with h₁ | h₁
      · subst h₁
        exact le_max_left 0 _
      · exact h kp h₁

theorem applyAdjusts_nonneg (ops : List AdjArgs) (data : Data)
    (h : NonNeg data) : NonNeg (applyAdjusts ops data) := by
  induction ops generalizing data with
  | nil => exact h
  | cons a t ih => exact ih _ (adjustStock_nonneg a.now a.id a.delta data h)

end Asm

namespace Str

theorem adjustCount_nonneg (now id : String) (delta : ℤ)
    (reason note : String) (data : MobsData) (h : NonNeg data) :
    NonNeg (cmd_adjust_count now id delta reason note data).state := by
  unfold cmd_adjust_count
  dsimp only
  cases hg : PaddiKV.getA id.pyStrip data.mobs with
  | none => exact h
  | some mob =>
    dsimp only
    split
    · exact h
    · intro km hkm
      dsimp only [save_mobs, log_movement] at hkm
      rcases PaddiKV.mem_setA hkm with h₁ | h₁
      · subst h₁
        exact le_max_left 0 _
      · exact h km h₁

theorem strApplyAdjusts_nonneg (ops : List AdjArgs) (data : MobsData)
    (h : NonNeg data) : NonNeg (applyAdjusts ops data) := by
  induction ops generalizing data with
  | nil => exact h
  | cons a t ih =>
    exact ih _ (adjustCount_nonneg a.now a.id a.delta a.reason a.note data h)

end Str

/-- C1: every quantity adjustment on an existing record stores
max(0, current + delta) — for a zero delta the command short-circuits
without writing, which leaves the same value because stored quantities
are non-negative — so the resulting quantity is non-negative after
every call sequence regardless of the sign or magnitude of each delta;
and in move_stock, when the new quantity for the keyed sub-location is
zero, that location key is removed from the stock_by_location mapping
rather than retained at zero. -/
theorem claim_C1 (now id location note aid sid sreason snote : String)
    (delta adelta sdelta : ℤ)
    (data : Ipm.Inventory) (product : Ipm.Product) (ops : List Ipm.MoveArgs)
    (adata : Asm.Data) (part : Asm.Part) (aops : List Asm.AdjArgs)
    (sdata : Str.MobsData) (mob : Str.Mob) (sops : List Str.AdjArgs)
    (hnn : Ipm.NonNeg data)
    (hp : PaddiKV.getA id.pyStrip.pyUpper data.products = some product)
    (hann : Asm.NonNeg adata)
    (hap : PaddiKV.getA aid.pyStrip.pyUpper adata.parts = some part)
    (hsnn : Str.NonNeg sdata)
    (hsp : PaddiKV.getA sid.pyStrip sdata.mobs = some mob) :
    (Ipm.stockOf (Ipm.cmd_move_stock now id location delta note data).state
        id.pyStrip.pyUpper location.pyStrip =
      max 0 (Ipm.stockOf data id.pyStrip.pyUpper location.pyStrip + delta)) ∧
    (delta ≠ 0 →
      Ipm.stockOf data id.pyStrip.pyUpper location.pyStrip + delta ≤ 0 →
      ∀ p₂, PaddiKV.getA id.pyStrip.pyUpper
          (Ipm.cmd_move_stock now id location delta note data).state.products
          = some p₂ →
        PaddiKV.getA location.pyStrip p₂.stock_by_location = none) ∧
    Ipm.NonNeg (Ipm.applyMoves ops data) ∧
    (Asm.stockOf (Asm.cmd_adjust_stock now aid adelta adata).state
        aid.pyStrip.pyUpper =
      max 0 (Asm.stockOf adata aid.pyStrip.pyUpper + adelta)) ∧
    Asm.NonNeg (Asm.applyAdjusts aops adata) ∧
    (Str.countOf (Str.cmd_adjust_count now sid sdelta sreason snote
        sdata).state sid.pyStrip =
      max 0 (Str.countOf sdata sid.pyStrip + sdelta)) ∧
    Str.NonNeg (Str.applyAdjusts sops sdata) := by
  have hsd : Ipm.stockOf data id.pyStrip.pyUpper location.pyStrip =
      (PaddiKV.getA location.pyStrip product.stock_by_location).getD 0 := by
    unfold Ipm.stockOf
    rw [hp]
  have hcur : 0 ≤ Ipm.stockOf data id.pyStrip.pyUpper location.pyStrip := by
    rw [hsd]
    cases hv : PaddiKV.getA location.pyStrip product.stock_by_location with
    | none => simp
    | some v =>
      simpa using hnn _ (PaddiKV.getA_mem hp) _ (PaddiKV.getA_mem hv)
  have hasd : Asm.stockOf adata aid.pyStrip.pyUpper = part.stock := by
    unfold Asm.stockOf
    rw [hap]
  have hacur : 0 ≤ Asm.stockOf adata aid.pyStrip.pyUpper := by
    rw [hasd]
    exact hann _ (PaddiKV.getA_mem hap)
  have hssd : Str.countOf sdata sid.pyStrip = mob.head_count := by
    unfold Str.countOf
    rw [hsp]
  have hscur : 0 ≤ Str.countOf sdata sid.pyStrip := by
    rw [hssd]
    exact hsnn _ (PaddiKV.getA_mem hsp)
  refine ⟨?_, ?_, Ipm.applyMoves_nonneg ops data hnn, ?_,
    Asm.applyAdjusts_nonneg aops adata hann, ?_,
    Str.strApplyAdjusts_nonneg sops sdata hsnn⟩
  · by_cases hδ : delta = 0
    · subst hδ
      unfold Ipm.cmd_move_stock
      dsimp only
      rw [hp]
      dsimp only
      rw [if_pos rfl, add_zero, max_eq_right hcur]
    · unfold Ipm.cmd_move_stock
      dsimp only
      rw [hp]
      dsimp only
      rw [if_neg hδ]
      unfold Ipm.stockOf
      dsimp only [Ipm.save_inventory, Ipm.log_transaction]
      rw [PaddiKV.getA_setA_self, hp]
      dsimp only
      split
      · rw [PaddiKV.getA_setA_self]
        rfl
      · rename_i hneg
        rw [PaddiKV.getA_eraseA_self]
        have hz : (0 : ℤ) ⊔
            ((PaddiKV.getA location.pyStrip
              product.stock_by_location).getD 0 + delta) = 0 :=
          le_antisymm (not_lt.mp hneg) (le_max_left 0 _)
        simp [hz]
  · intro hδ hsum p₂ hp₂
    rw [hsd] at hsum
    unfold Ipm.cmd_move_stock at hp₂
    dsimp only at hp₂
    rw [hp] at hp₂
    dsimp only at hp₂
    rw [if_neg hδ] at hp₂
    dsimp only [Ipm.save_inventory, Ipm.log_transaction] at hp₂
    rw [PaddiKV.getA_setA_self] at hp₂
    injection hp₂ with hp₂
    subst hp₂
    dsimp only
    rw [if_neg (by omega :
      ¬ (0 : ℤ) ⊔ ((PaddiKV.getA location.pyStrip
        product.stock_by_location).getD 0 + delta) > 0)]
    exact PaddiKV.getA_eraseA_self _ _
  · by_cases hδ : adelta = 0
    · subst hδ
      unfold Asm.cmd_adjust_stock
      dsimp only
      rw [hap]
      dsimp only
      rw [if_pos rfl, add_zero, max_eq_right hacur]
    · unfold Asm.cmd_adjust_stock
      dsimp only
      rw [hap]
      dsimp only
      rw [if_neg hδ]
      unfold Asm.stockOf
      dsimp only [Asm.save_data, Asm.log_transaction]
      rw [PaddiKV.getA_setA_self, hap]
  · by_cases hδ : sdelta = 0
    · subst hδ
      unfold Str.cmd_adjust_count
      dsimp only
      rw [hsp]
      dsimp only
      rw [if_pos rfl, add_zero, max_eq_right hscur]
    · unfold Str.cmd_adjust_count
      dsimp only
      rw [hsp]
      dsimp only
      rw [if_neg hδ]
      unfold Str.countOf
      dsimp only [Str.save_mobs, Str.log_movement]
      rw [PaddiKV.getA_setA_self, hsp]

/-- C1 witness: claim_C1 applied to the concrete stores, reproducing the
specification scenario: moving -50 against 30 units at Silo 1 stores 0
and removes the Silo 1 key; an asm adjustment of -10 against 5 clamps
to 0; an str adjustment of +20 on 80 head gives 100. -/
theorem claim_C1_witness :
    Ipm.stockOf (Ipm.cmd_move_stock "T2" "UREA" "Silo 1" (-50) ""
      Ipm.demoInventory).state "UREA" "Silo 1" = 0 ∧
    (∀ p₂, PaddiKV.getA "UREA" (Ipm.cmd_move_stock "T2" "UREA" "Silo 1" (-50)
        "" Ipm.demoInventory).state.products = some p₂ →
      PaddiKV.getA "Silo 1" p₂.stock_by_location = none) ∧
    Asm.stockOf (Asm.cmd_adjust_stock "T2" "OIL_FILTER" (-10)
      Asm.demoData).state "OIL_FILTER" = 0 ∧
    Str.countOf (Str.cmd_adjust_count "T2" "mob_bbbb2222" 20 "" ""
      Str.demoMobs).state "mob_bbbb2222" = 100 := by
  have hnn : Ipm.NonNeg Ipm.demoInventory := by
    intro kp hkp lv hlv
    simp only [Ipm.demoInventory, List.mem_cons, List.not_mem_nil,
      or_false] at hkp
    subst hkp
    simp only [Ipm.demoProduct, List.mem_cons, List.not_mem_nil,
      or_false] at hlv
    subst hlv
    decide
  have hann : Asm.NonNeg Asm.demoData := by
    intro kp hkp
    simp only [Asm.demoData, List.mem_cons, List.not_mem_nil,
      or_false] at hkp
    subst hkp
    decide
  have hsnn : Str.NonNeg Str.demoMobs := by
    intro km hkm
    simp only [Str.demoMobs, List.mem_cons, List.not_mem_nil,
      or_false] at hkm
    rcases hkm with h | h <;> subst h <;> decide
  have h := claim_C1 "T2" "UREA" "Silo 1" "" "OIL_FILTER" "mob_bbbb2222" ""
    "" (-50) (-10) 20 Ipm.demoInventory Ipm.demoProduct [] Asm.demoData
    Asm.demoPart [] Str.demoMobs Str.onMob [] hnn (by decide) hann (by decide)
    hsnn (by decide)
  refine ⟨h.1.trans (by decide), ?_, h.2.2.2.1.trans (by decide),
    h.2.2.2.2.2.1.trans (by decide)⟩
  intro p₂ hp₂
  exact h.2.1 (by decide) (by decide) p₂ hp₂
